import Mathlib

/-!
# Verification of the LauzHack agent feedback loop

A shallow embedding of the feedback-loop controller and its collaborators
from `app/services/agent_loop.py`, `app/services/junior_dev.py` and
`app/services/orchestrator.py`, together with theorems settling the frozen
claims about the natural-language specification.

Conventions of the embedding:
* Python strings are Lean `String`s; `str.strip`, `str.find`, `str.rfind`,
  slicing, `in` and `startswith`/`endswith` are reproduced as explicit
  functions below.
* `json.loads` (a standard-library collaborator) is modelled by a fuel-based
  recursive-descent parser `jparse` over the JSON fragment the program
  exchanges: objects, arrays, strings with the common escapes, integer
  numbers, `true`/`false`/`null`, with insignificant whitespace.  Parse
  failure models `json.JSONDecodeError`.
* The external language-model completions, the raised exceptions of worker
  tasks and the `npm` build are inputs of the program, modelled as oracle
  parameters; everything the repository's code does with those inputs is
  translated directly from the source.
* `asyncio.gather(..., return_exceptions=True)` returns results in task
  submission order, which is how the fan-out is embedded.
-/

namespace AgentLoop

/-! ## Python string primitives -/

/-- The whitespace stripped by Python `str.strip()`. -/
def isPyWs (c : Char) : Bool :=
  c = ' ' ∨ c = '\t' ∨ c = '\n' ∨ c = '\r' ∨ c = Char.ofNat 11 ∨ c = Char.ofNat 12

/-- Python `str.strip()`. -/
def pyStrip (s : String) : String :=
  ⟨((s.toList.dropWhile isPyWs).reverse.dropWhile isPyWs).reverse⟩

/-- Python `str.startswith`. -/
def strStartsWith (s pre : String) : Bool := pre.toList.isPrefixOf s.toList

/-- Python `str.endswith`. -/
def strEndsWith (s suf : String) : Bool := suf.toList.isSuffixOf s.toList

/-- Index of the first occurrence of `need` in `hay` (Python `str.find`,
`none` for `-1`). -/
def findSub : List Char → List Char → Option Nat
  | [], need => if need.isEmpty then some 0 else none
  | hay@(_ :: rest), need =>
    if need.isPrefixOf hay then some 0 else (findSub rest need).map (· + 1)

/-- Index of the last occurrence of `need` in `hay` (Python `str.rfind`,
`none` for `-1`). -/
def rfindSub : List Char → List Char → Option Nat
  | [], need => if need.isEmpty then some 0 else none
  | hay@(_ :: rest), need =>
    match rfindSub rest need with
    | some i => some (i + 1)
    | none => if need.isPrefixOf hay then some 0 else none

/-- Python `sub in s`. -/
def containsSub (s sub : String) : Bool := (findSub s.toList sub.toList).isSome

/-- Python slice `s[i:]`. -/
def dropChars (s : String) (i : Nat) : String := ⟨s.toList.drop i⟩

/-- Python slice `s[:i]`. -/
def takeChars (s : String) (i : Nat) : String := ⟨s.toList.take i⟩

/-- Python slice `s[i:j]`. -/
def sliceChars (s : String) (i j : Nat) : String := ⟨(s.toList.take j).drop i⟩

/-! ## JSON values and `json.loads` -/

/-- JSON values as produced by `json.loads` (numbers restricted to the
integers, which is all the program exchanges). -/
inductive JVal where
  | str (s : String)
  | num (n : Int)
  | bool (b : Bool)
  | null
  | arr (xs : List JVal)
  | obj (kvs : List (String × JVal))

/-- `d.get(k)` on a decoded JSON object: duplicate keys collapse to the last
occurrence, as in Python dicts. -/
def jGet (kvs : List (String × JVal)) (k : String) : Option JVal :=
  (kvs.reverse.find? (fun p => p.1 == k)).map (·.2)

/-- `k in d` on a decoded JSON object. -/
def jHasKey (kvs : List (String × JVal)) (k : String) : Bool :=
  (jGet kvs k).isSome

/-- Python truthiness of a decoded JSON value (`bool(x)`). -/
def pyTruthy : JVal → Bool
  | .str s => s ≠ ""
  | .num n => n ≠ 0
  | .bool b => b
  | .null => false
  | .arr xs => ¬xs.isEmpty
  | .obj kvs => ¬kvs.isEmpty

def isJsonWs (c : Char) : Bool := c = ' ' ∨ c = '\t' ∨ c = '\n' ∨ c = '\r'

def skipWs (cs : List Char) : List Char := cs.dropWhile isJsonWs

/-- Decode the body of a JSON string literal (after the opening quote),
returning the decoded characters and the rest of the input. -/
def parseStrChars : List Char → Option (List Char × List Char)
  | [] => none
  | '"' :: rest => some ([], rest)
  | '\\' :: e :: rest =>
    let dec : Option Char :=
      if e = '"' then some '"'
      else if e = '\\' then some '\\'
      else if e = '/' then some '/'
      else if e = 'n' then some '\n'
      else if e = 't' then some '\t'
      else if e = 'r' then some '\r'
      else none
    match dec with
    | some c => (parseStrChars rest).map (fun (s, r) => (c :: s, r))
    | none => none
  | '\\' :: [] => none
  | c :: rest => (parseStrChars rest).map (fun (s, r) => (c :: s, r))

/-- Decode an integer JSON number. -/
def parseNum (cs : List Char) : Option (Int × List Char) :=
  let (neg, cs) := match cs with
    | '-' :: rest => (true, rest)
    | _ => (false, cs)
  let digits := cs.takeWhile Char.isDigit
  let rest := cs.dropWhile Char.isDigit
  if digits.isEmpty then none
  else
    let n : Nat := digits.foldl (fun acc c => acc * 10 + (c.toNat - 48)) 0
    some (if neg then -(n : Int) else (n : Int), rest)

mutual

/-- Fuel-based JSON value parser (model of `json.loads`'s grammar). -/
def parseVal : Nat → List Char → Option (JVal × List Char)
  | 0, _ => none
  | fuel + 1, cs =>
    match skipWs cs with
    | [] => none
    | c :: rest =>
      if c = '"' then
        (parseStrChars rest).map (fun (s, r) => (JVal.str ⟨s⟩, r))
      else if c = Char.ofNat 123 then
        parseObjBody fuel rest
      else if c = '[' then
        parseArrBody fuel rest
      else if c = 't' then
        match rest with
        | 'r' :: 'u' :: 'e' :: r => some (JVal.bool true, r)
        | _ => none
      else if c = 'f' then
        match rest with
        | 'a' :: 'l' :: 's' :: 'e' :: r => some (JVal.bool false, r)
        | _ => none
      else if c = 'n' then
        match rest with
        | 'u' :: 'l' :: 'l' :: r => some (JVal.null, r)
        | _ => none
      else
        (parseNum (c :: rest)).map (fun (n, r) => (JVal.num n, r))

/-- Members of a JSON object, after the opening brace. -/
def parseObjBody : Nat → List Char → Option (JVal × List Char)
  | 0, _ => none
  | fuel + 1, cs =>
    match skipWs cs with
    | [] => none
    | c :: rest =>
      if c = Char.ofNat 125 then some (JVal.obj [], rest)
      else if c = '"' then
        match parseStrChars rest with
        | none => none
        | some (key, afterKey) =>
          match skipWs afterKey with
          | ':' :: afterColon =>
            match parseVal fuel afterColon with
            | none => none
            | some (v, afterVal) =>
              match skipWs afterVal with
              | ',' :: afterComma =>
                match parseObjBody fuel afterComma with
                | some (JVal.obj (kv :: kvs), r) =>
                  some (JVal.obj ((⟨key⟩, v) :: kv :: kvs), r)
                | _ => none
              | c' :: r =>
                if c' = Char.ofNat 125 then some (JVal.obj [(⟨key⟩, v)], r) else none
              | [] => none
          | _ => none
      else none

/-- Elements of a JSON array, after the opening bracket. -/
def parseArrBody : Nat → List Char → Option (JVal × List Char)
  | 0, _ => none
  | fuel + 1, cs =>
    match skipWs cs with
    | ']' :: rest => some (JVal.arr [], rest)
    | cs' =>
      match parseVal fuel cs' with
      | none => none
      | some (v, afterVal) =>
        match skipWs afterVal with
        | ',' :: afterComma =>
          match parseArrBody fuel afterComma with
          | some (JVal.arr (x :: xs), r) => some (JVal.arr (v :: x :: xs), r)
          | _ => none
        | ']' :: r => some (JVal.arr [v], r)
        | _ => none

end

/-- Model of `json.loads`: parse one JSON value covering the whole input
(up to surrounding whitespace); `none` models `json.JSONDecodeError`. -/
def jparse (s : String) : Option JVal :=
  match parseVal (s.length + 2) s.toList with
  | some (v, rest) => if (skipWs rest).isEmpty then some v else none
  | none => none

example : jparse "\x7b\"type\":\"feedback\",\"blocking\":true\x7d" =
    some (JVal.obj [("type", JVal.str "feedback"), ("blocking", JVal.bool true)]) := by
  rfl

example : jparse "\x7b\"files\": \x7d" = none := by rfl

example : jparse " [1, -2, null] " =
    some (JVal.arr [JVal.num 1, JVal.num (-2), JVal.null]) := by rfl

/-! ## Plan schema (`app/schemas/plan.py`) -/

structure FunctionInfo where
  name : String
  description : String
  deriving DecidableEq

structure Dependency where
  from_path : String
  imports : List FunctionInfo
  deriving DecidableEq

structure Route where
  name : String
  component : String
  deriving DecidableEq

structure FilePlan where
  path : String
  filename : String
  functions : List FunctionInfo
  dependencies : List Dependency
  props : String
  routes : List Route
  deriving DecidableEq

structure GlobalStyle where
  color_scheme : String
  style_description : String
  deriving DecidableEq

structure OrchestrationPlan where
  global_style : GlobalStyle
  files : List FilePlan
  deriving DecidableEq

/-! Pydantic validation `OrchestrationPlan(**plan_data)` on decoded JSON:
required fields must be present with the declared shapes, extra keys are
ignored, and `routes` defaults to `[]` when absent.  A validation failure
(`Option.none`) models pydantic's `ValidationError`, a `ValueError`. -/

def vStr : JVal → Option String
  | .str s => some s
  | _ => none

def vList : JVal → Option (List JVal)
  | .arr xs => some xs
  | _ => none

def vFunctionInfo : JVal → Option FunctionInfo
  | .obj kvs => do
    let n ← (jGet kvs "name").bind vStr
    let d ← (jGet kvs "description").bind vStr
    some ⟨n, d⟩
  | _ => none

def vDependency : JVal → Option Dependency
  | .obj kvs => do
    let f ← (jGet kvs "from_path").bind vStr
    let is ← (jGet kvs "imports").bind vList
    let is ← is.mapM vFunctionInfo
    some ⟨f, is⟩
  | _ => none

def vRoute : JVal → Option Route
  | .obj kvs => do
    let n ← (jGet kvs "name").bind vStr
    let c ← (jGet kvs "component").bind vStr
    some ⟨n, c⟩
  | _ => none

def vFilePlan : JVal → Option FilePlan
  | .obj kvs => do
    let p ← (jGet kvs "path").bind vStr
    let f ← (jGet kvs "filename").bind vStr
    let fns ← (jGet kvs "functions").bind vList
    let fns ← fns.mapM vFunctionInfo
    let deps ← (jGet kvs "dependencies").bind vList
    let deps ← deps.mapM vDependency
    let props ← (jGet kvs "props").bind vStr
    let routes ← match jGet kvs "routes" with
      | none => some []
      | some v => (vList v).bind (·.mapM vRoute)
    some ⟨p, f, fns, deps, props, routes⟩
  | _ => none

def vGlobalStyle : JVal → Option GlobalStyle
  | .obj kvs => do
    let c ← (jGet kvs "color_scheme").bind vStr
    let s ← (jGet kvs "style_description").bind vStr
    some ⟨c, s⟩
  | _ => none

def vOrchestrationPlan : JVal → Option OrchestrationPlan
  | .obj kvs => do
    let g ← (jGet kvs "global_style").bind vGlobalStyle
    let fs ← (jGet kvs "files").bind vList
    let fs ← fs.mapM vFilePlan
    some ⟨g, fs⟩
  | _ => none

/-! ## Junior developer (`app/services/junior_dev.py`) -/

/-- `clean_code_output`: strip, drop an opening code fence line, drop a
closing fence, strip again. -/
def clean_code_output (code : String) : String :=
  let code := pyStrip code
  let code :=
    if strStartsWith code "```" then
      match findSub code.toList ['\n'] with
      | some i => dropChars code (i + 1)
      | none => code
    else code
  let code :=
    if strEndsWith code "```" then
      match rfindSub code.toList ['`', '`', '`'] with
      | some i => takeChars code i
      | none => code
    else code
  pyStrip code

/-- Outcome of `_parse_feedback_or_code`: either the decoded JSON object
(returned verbatim when it carries a `"type"` key) or implementation code. -/
inductive ParsedReply where
  | jsonObj (kvs : List (String × JVal))
  | code (c : String)

/-- The `cleaned` string `_parse_feedback_or_code` hands to `json.loads`:
strip, drop an opening fence line, cut at the last closing fence and strip
again. -/
def cleanedOf (raw : String) : String :=
  let cleaned := pyStrip raw
  let cleaned :=
    if strStartsWith cleaned "```" then
      match findSub cleaned.toList ['\n'] with
      | some i => dropChars cleaned (i + 1)
      | none => cleaned
    else cleaned
  if strEndsWith cleaned "```" then
    match rfindSub cleaned.toList ['`', '`', '`'] with
    | some i => pyStrip (takeChars cleaned i)
    | none => cleaned
  else cleaned

/-- `_parse_feedback_or_code`: strip fences, try `json.loads`, keep a decoded
dict that has a `"type"` key, otherwise fall back to cleaned code. -/
def parse_feedback_or_code (raw : String) : ParsedReply :=
  match jparse (cleanedOf raw) with
  | some (.obj kvs) =>
    if jHasKey kvs "type" then .jsonObj kvs else .code (clean_code_output raw)
  | _ => .code (clean_code_output raw)

/-- Outcome of one upstream chat-completion call.  `failure` carries the
error text the program produces on that path: the missing-credential
message, `"No response received from OpenAI API"`, `"OpenAI API returned
empty content"`, or `"Failed to implement component: "` plus the raised
exception's text — all of which return an error payload before any
classification happens. -/
inductive ApiOutcome where
  | success (text : String)
  | failure (content : String)

/-- The per-file result payload of `implement_component`.  Implementation
and feedback payloads carry `file_plan.filename`; error payloads carry only
the error content (and a session id), no filename. -/
inductive JuniorResult where
  | implementation (filename : String) (content : JVal)
  | feedback (filename : String) (message : JVal) (blocking : Bool)
  | error (content : String)

/-- The result classification of `implement_component` given the reply of
the upstream completion call for `filename`'s file plan. -/
def implement_component_result (filename : String) (o : ApiOutcome) : JuniorResult :=
  match o with
  | .failure content => .error content
  | .success text =>
    let implementation_code := pyStrip text
    match parse_feedback_or_code implementation_code with
    | .jsonObj kvs =>
      match jGet kvs "type" with
      | some (.str "feedback") =>
        .feedback filename ((jGet kvs "message").getD (.str ""))
          (pyTruthy ((jGet kvs "blocking").getD (.bool false)))
      | _ =>
        .implementation filename
          (match jGet kvs "code" with
           | some v => v
           | none => .str (clean_code_output implementation_code))
    | .code c => .implementation filename (.str c)

/-! ## Parallel fan-out (`_run_juniors_parallel`) -/

/-- What happens to one fanned-out task: it completes with an upstream
outcome, or the task itself raises (captured by
`asyncio.gather(..., return_exceptions=True)`). -/
inductive TaskOutcome where
  | ok (o : ApiOutcome)
  | exn (msg : String)

/-- One entry of the gathered result list. -/
inductive GatherItem where
  | res (r : JuniorResult)
  | exn (msg : String)

/-- `_run_juniors_parallel`: one task per plan file, submitted in plan
order; `asyncio.gather` returns results in submission order regardless of
completion order, with exceptions captured in place. -/
def run_juniors_parallel (files : List FilePlan) (outcomes : Nat → TaskOutcome) :
    List GatherItem :=
  files.enum.map fun p =>
    match outcomes p.1 with
    | .ok o => .res (implement_component_result p.2.filename o)
    | .exn m => .exn m

/-! ## Plan generator (`app/services/orchestrator.py`, `process_chat`) -/

/-- One stored conversation turn `{"role": r, "parts": [t]}`. -/
structure Turn where
  role : String
  text : String
  deriving DecidableEq

/-- Python dict read `m.get(k)` for a string-keyed dict kept in insertion
order. -/
def pyGet {β : Type _} (m : List (String × β)) (k : String) : Option β :=
  (m.find? (·.1 == k)).map (·.2)

/-- Python dict assignment `m[k] = v`: overwrite in place, or append. -/
def pySet {β : Type _} (m : List (String × β)) (k : String) (v : β) :
    List (String × β) :=
  match m with
  | [] => [(k, v)]
  | (k', v') :: rest =>
    if k' = k then (k', v) :: rest else (k', v') :: pySet rest k v

/-- The in-memory `chat_sessions` store, in insertion order. -/
abbrev Sessions := List (String × List Turn)

def lookupSession (st : Sessions) (sid : String) : Option (List Turn) :=
  pyGet st sid

/-- Python dict assignment `chat_sessions[sid] = h`. -/
def setSession (st : Sessions) (sid : String) (h : List Turn) : Sessions :=
  pySet st sid h

def lbrace : Char := Char.ofNat 123
def rbrace : Char := Char.ofNat 125

/-- The classified result of `process_chat`. -/
inductive ChatOutcome where
  | plan (p : OrchestrationPlan)
  | question (content : String)
  | error (content : String)

/-- The plan-extraction attempt of `process_chat` (lines 375-394): when both
braces occur, slice from the first `{` to the last `}`, `json.loads` it and
validate; `none` covers the absence of a brace span and every parse or
validation failure. -/
def planParse (text : String) : Option OrchestrationPlan :=
  if text.toList.contains lbrace ∧ text.toList.contains rbrace then
    let start := (findSub text.toList [lbrace]).getD 0
    let stop := (rfindSub text.toList [rbrace]).getD 0 + 1
    (jparse (sliceChars text start stop)).bind vOrchestrationPlan
  else none

/-- The response classification of `process_chat`: a validated plan, or else
a question carrying the (stripped) text — parse and validation failures fall
back to the question branch (lines 391-400). -/
def classifyResponse (text : String) : ChatOutcome :=
  match planParse text with
  | some p => .plan p
  | none => .question text

structure ChatReturn where
  outcome : ChatOutcome
  sessionId : Option String
  sessions : Sessions

/-- `process_chat`: the session store is threaded explicitly; `freshId`
models the `uuid.uuid4()` minted when no session id is supplied; the
upstream completion call is the `api` input.  Note that the history-append
`chat_sessions[session_id].append(...)` raises `KeyError` when a supplied
session id has no entry in the store; the surrounding `try` converts that
into an error payload whose content is `str(KeyError(sid))`, i.e. the
quoted session id, with nothing appended. -/
def process_chat (st : Sessions) (hasClient : Bool) (freshId : String)
    (instructions : String) (sessionId : Option String) (api : ApiOutcome) :
    ChatReturn :=
  if ¬hasClient then
    ⟨.error "API key is not set for the configured orchestrator provider.",
      sessionId, st⟩
  else
    let sidSt : String × Sessions :=
      match sessionId with
      | none => (freshId, setSession st freshId [])
      | some s => (s, st)
    let sid := sidSt.1
    let st₁ := sidSt.2
    match api with
    | .failure msg => ⟨.error msg, some sid, st₁⟩
    | .success text =>
      match lookupSession st₁ sid with
      | none => ⟨.error ("\x27" ++ sid ++ "\x27"), some sid, st₁⟩
      | some h =>
        let historyText :=
          if instructions = "" then "[Image-based request]" else instructions
        let st₂ :=
          setSession st₁ sid (h ++ [⟨"user", historyText⟩, ⟨"model", text⟩])
        ⟨classifyResponse (pyStrip text), some sid, st₂⟩

/-! ## Feedback aggregation (`agent_loop._summarize_feedback`) -/

/-- One feedback digest item `{"type": "feedback", "filename": ...,
"message": ..., "blocking": ...}` (the constant `"type"` tag is implicit). -/
structure FeedbackItem where
  filename : String
  message : JVal
  blocking : Bool

/-- The `impl_results` dict assembled by the loop: every non-exception task
payload in gather order, plus `{"filename": "unknown", "error": str(exc)}`
entries for tasks that raised. -/
structure ImplResults where
  implementations : List JuniorResult
  errors : List (String × String)

/-- The unsorted feedback list of `_summarize_feedback`: promoted feedback
payloads (error payloads are not of type `"feedback"` and are dropped),
then one blocking item per captured exception entry. -/
def combinedItems (res : ImplResults) : List FeedbackItem :=
  (res.implementations.filterMap fun r =>
    match r with
    | .feedback f msg b => some ⟨f, msg, b⟩
    | _ => none)
  ++ res.errors.map fun e => ⟨e.1, .str e.2, true⟩

/-- Index of the last occurrence of a name (the dict comprehension
`{fp.filename: idx}` keeps the last index for duplicate filenames). -/
def lastIdxOf : List String → String → Option Nat
  | [], _ => none
  | x :: xs, n =>
    match lastIdxOf xs n with
    | some i => some (i + 1)
    | none => if x = n then some 0 else none

/-- The sort key `filename_order.get(item.get("filename", ""), 999)`. -/
def sortKeyOf (plan_files : List FilePlan) (it : FeedbackItem) : Nat :=
  (lastIdxOf (plan_files.map (·.filename)) it.filename).getD 999

/-- Stable sort by a natural-number key.  Python's `list.sort(key=...)` is
guaranteed stable; a stable sort by a key is extensionally unique, so this
insertion sort (established to be a stable sort below) is `list.sort`. -/
def sortByKey {α : Type _} (key : α → Nat) (l : List α) : List α :=
  l.insertionSort fun a b => key a ≤ key b

/-- `_summarize_feedback`. -/
def summarize_feedback (impl_results : ImplResults) (plan_files : List FilePlan) :
    List FeedbackItem :=
  sortByKey (sortKeyOf plan_files) (combinedItems impl_results)

/-! ## Next-round instructions (`agent_loop._build_feedback_instructions`) -/

/-- The value under `item.get('message', '')`, collapsed to a string:
`.str s` yields `s`, and any non-string value yields `""`.  In the program
`.strip()` on a non-string message raises an uncaught `AttributeError`
(reachable: `implement_component` stores `parsed.get("message", "")`
verbatim, so a worker reply with `"message": null` stores `None`); this
total collapse is therefore not faithful on those inputs.  The
crash-faithful rendering is `feedbackLineE` below, and the agreement
lemmas show the two coincide on every execution that returns a value. -/
def jStrD : JVal → String
  | .str s => s
  | _ => ""

def feedbackLine (it : FeedbackItem) : String :=
  "- " ++ it.filename ++ ": " ++ pyStrip (jStrD it.message) ++
    (if it.blocking then " (blocking)" else "")

/-- `_build_feedback_instructions` (the loop always passes
`build_error=None`). -/
def build_feedback_instructions (base : String) (round_index : Nat)
    (items : List FeedbackItem) : String :=
  let feedback_block :=
    if items.isEmpty then "No feedback."
    else String.intercalate "\n" (items.map feedbackLine)
  base ++ "\n\n" ++
    "Feedback summary (round " ++ toString (round_index + 1) ++ "):\n" ++
    feedback_block ++ "\n\n" ++
    "Revise the plan to address the above feedback. Keep already-implemented files stable unless a blocking issue requires changes."

/-! ## The feedback-loop controller
(`agent_loop.run_orchestration_with_feedback`) -/

/-- What one round's `process_chat` call produced, as consumed by the loop:
either a validated plan, or any non-plan payload's `content` (question text,
parse diagnostic or error message). -/
inductive PlanResult where
  | plan (p : OrchestrationPlan)
  | other (content : String)

/-- Bridge from `process_chat`'s classified result to the loop's check
`plan_result.get("type") != "plan"`. -/
def chatToPlanResult : ChatOutcome → PlanResult
  | .plan p => .plan p
  | .question c => .other c
  | .error c => .other c

/-- One recorded iteration `{"plan": ..., "implementations": ...,
"feedback": ...}`.  The recorded feedback list is the same (mutated) list
object the round goes on appending to, so it carries the synthesized
missing-files or build items of its round. -/
structure Iteration where
  plan : OrchestrationPlan
  results : ImplResults
  feedback : List FeedbackItem

inductive LoopStatus where
  | completed
  | softLimitReached
  | maxRoundsReached
  deriving DecidableEq

/-- The loop's returned dict.  `isError` distinguishes the early
`{"type": "error", ...}` return (which carries no implementations map) from
`{"type": "feedback_loop", ...}` returns. -/
structure LoopResult where
  isError : Bool
  content : Option String
  status : Option LoopStatus
  iterations : List Iteration
  implementations : Option (List (String × JVal))
  filePlans : Option (List (String × FilePlan))
  buildStatus : Option String
  buildLog : Option String

structure LoopState where
  currentInstructions : String
  filePlanMap : List (String × FilePlan)
  implementationMap : List (String × JVal)
  iterations : List Iteration

/-- Fold of the gather list into the `impl_results` dict and the cumulative
implementation map (lines 161-168). -/
def collectStep (acc : ImplResults × List (String × JVal)) (it : GatherItem) :
    ImplResults × List (String × JVal) :=
  match it with
  | .exn m => (⟨acc.1.implementations, acc.1.errors ++ [("unknown", m)]⟩, acc.2)
  | .res r =>
    let res' : ImplResults := ⟨acc.1.implementations ++ [r], acc.1.errors⟩
    match r with
    | .implementation f c => (res', pySet acc.2 f c)
    | _ => (res', acc.2)

def collectResults (items : List GatherItem) (m : List (String × JVal)) :
    ImplResults × List (String × JVal) :=
  items.foldl collectStep (⟨[], []⟩, m)

/-- The single synthesized item for planned filenames missing from the
cumulative implementation map (lines 185-192): one item for the whole
comma-joined list. -/
def missingItem (missing : List String) : FeedbackItem :=
  ⟨String.intercalate "," missing,
    .str "Missing implementations for planned files", true⟩

/-- The synthesized blocking build item (lines 209-216). -/
def buildItem (log : String) : FeedbackItem :=
  ⟨"build", .str (takeChars log 2000), true⟩

/-- `impl_results.get("failed", 0)`: the dict literal of line 161 never
carries a `"failed"` key, so the read always yields the default `0`. -/
def implResultsFailed (_ : ImplResults) : Nat := 0

/-- The gather-and-collect step of one round: fan out over the plan files,
then fold the gathered list into the `impl_results` dict and the cumulative
implementation map. -/
def roundCollect (p : OrchestrationPlan) (outcomes : Nat → TaskOutcome)
    (m : List (String × JVal)) : ImplResults × List (String × JVal) :=
  collectResults (run_juniors_parallel p.files outcomes) m

/-- `missing_files` of a round: planned filenames still absent from the
cumulative implementation map (line 180-182). -/
def roundMissing (p : OrchestrationPlan) (implMap : List (String × JVal)) :
    List String :=
  (p.files.filter fun fp => (pyGet implMap fp.filename).isNone).map (·.filename)

/-- The early `{"type": "error", ...}` return of lines 148-152. -/
def errorResult (c : String) (st : LoopState) : LoopResult :=
  { isError := true, content := some c, status := none,
    iterations := st.iterations, implementations := none,
    filePlans := none, buildStatus := none, buildLog := none }

/-- The `{"status": "completed", ...}` return of lines 197-207. -/
def completedResult (st : LoopState) (p : OrchestrationPlan) (res : ImplResults)
    (fb : List FeedbackItem) (implMap : List (String × JVal))
    (fpm : List (String × FilePlan)) (log : String) : LoopResult :=
  { isError := false, content := none, status := some .completed,
    iterations := st.iterations ++ [⟨p, res, fb⟩],
    implementations := some implMap, filePlans := some fpm,
    buildStatus := some "passed", buildLog := some log }

/-- The `{"status": "soft_limit_reached", ...}` return of lines 220-229. -/
def softResult (st : LoopState) (p : OrchestrationPlan) (res : ImplResults)
    (fb : List FeedbackItem) (implMap : List (String × JVal))
    (fpm : List (String × FilePlan)) : LoopResult :=
  { isError := false, content := none, status := some .softLimitReached,
    iterations := st.iterations ++ [⟨p, res, fb⟩],
    implementations := some implMap, filePlans := some fpm,
    buildStatus := some "skipped", buildLog := none }

/-- The state carried into the next round (lines 231-233 plus the maps and
the shared, mutated feedback list recorded in this round's iteration). -/
def nextState (instructions : String) (round : Nat)
    (fpm : List (String × FilePlan)) (implMap : List (String × JVal))
    (st : LoopState) (p : OrchestrationPlan) (res : ImplResults)
    (fb₃ : List FeedbackItem) : LoopState :=
  { currentInstructions := build_feedback_instructions instructions round fb₃,
    filePlanMap := fpm, implementationMap := implMap,
    iterations := st.iterations ++ [⟨p, res, fb₃⟩] }

/-- One round of the loop body (lines 144-233): either a terminal result, or
the state carried into the next round.  The Python mutations of `blocking`
and `feedback_items` are flattened into the branches: with missing files,
`blocking` is forced true, so the build check and the soft-limit check are
skipped; with no missing files and no blocking feedback the build runs, and
a build failure forces `blocking` (appending the build item); the soft-limit
branch asks for the final round with `blocking` still false.  Note
`impl_results.get("failed", 0)` is `implResultsFailed`, constantly `0`. -/
def runRound (instructions : String) (maxRounds round : Nat)
    (planRes : PlanResult) (outcomes : Nat → TaskOutcome) (build : Bool × String)
    (st : LoopState) : Sum LoopResult LoopState :=
  match planRes with
  | .other c => .inl (errorResult c st)
  | .plan p =>
    let fpm := p.files.foldl (fun m fp => pySet m fp.filename fp) st.filePlanMap
    let rm := roundCollect p outcomes st.implementationMap
    let fb := summarize_feedback rm.1 p.files
    let missing := roundMissing p rm.2
    if missing.isEmpty then
      if (fb.any (·.blocking)) = false ∧ implResultsFailed rm.1 = 0 then
        if build.1 then
          .inl (completedResult st p rm.1 fb rm.2 fpm build.2)
        else
          .inr (nextState instructions round fpm rm.2 st p rm.1
            (fb ++ [buildItem build.2]))
      else
        if round = maxRounds - 1 ∧ (fb.any (·.blocking)) = false then
          .inl (softResult st p rm.1 fb rm.2 fpm)
        else
          .inr (nextState instructions round fpm rm.2 st p rm.1 fb)
    else
      .inr (nextState instructions round fpm rm.2 st p rm.1
        (fb ++ [missingItem missing]))

/-- The `{"status": "max_rounds_reached", ...}` return of lines 235-243. -/
def maxRoundsResult (st : LoopState) : LoopResult :=
  { isError := false, content := none, status := some .maxRoundsReached,
    iterations := st.iterations, implementations := some st.implementationMap,
    filePlans := some st.filePlanMap, buildStatus := none, buildLog := none }

/-- The body of `run_orchestration_with_feedback`, one recursion step per
round.  `remaining` counts rounds still allowed (`maxRounds - round_index`);
the oracles give each round's plan-generation outcome, per-task worker
outcomes, and `_run_build_check`'s `(ok, log)` result. -/
def runLoopAux (instructions : String) (maxRounds : Nat)
    (planOracle : Nat → PlanResult) (workerOracle : Nat → Nat → TaskOutcome)
    (buildOracle : Nat → Bool × String) :
    Nat → LoopState → LoopResult
  | 0, st => maxRoundsResult st
  | r + 1, st =>
    let round := maxRounds - (r + 1)
    match runRound instructions maxRounds round (planOracle round)
        (workerOracle round) (buildOracle round) st with
    | .inl out => out
    | .inr st' =>
      runLoopAux instructions maxRounds planOracle workerOracle buildOracle r st'

/-- `run_orchestration_with_feedback`, with the three external collaborators
as oracles. -/
def run_orchestration_with_feedback (instructions : String) (maxRounds : Nat)
    (planOracle : Nat → PlanResult) (workerOracle : Nat → Nat → TaskOutcome)
    (buildOracle : Nat → Bool × String) : LoopResult :=
  runLoopAux instructions maxRounds planOracle workerOracle buildOracle maxRounds
    { currentInstructions := instructions, filePlanMap := [],
      implementationMap := [], iterations := [] }

/-! ## The crash-faithful rendering of the next-instructions step

`_build_feedback_instructions` line 39 evaluates
`item.get('message', '').strip()`: the `get` returns the stored message
value (every payload the loop passes carries a `'message'` key), and
`.strip()` on a non-string value raises an uncaught `AttributeError` that
aborts `run_orchestration_with_feedback` with no return value.  That input
is reachable: `implement_component` stores `parsed.get("message", "")`
verbatim, so a worker reply `{"type": "feedback", "message": null}` puts
`None` into the promoted item.  Below, `none` models the uncaught
exception; the total definitions above are proved to agree with these on
every execution that returns. -/

/-- The one line of `feedback_lines` built for an item, or the
`AttributeError` (`none`) when the stored message is not a string. -/
def feedbackLineE (it : FeedbackItem) : Option String :=
  match it.message with
  | .str s => some ("- " ++ it.filename ++ ": " ++ pyStrip s ++
      (if it.blocking then " (blocking)" else ""))
  | _ => none

/-- The `feedback_lines` accumulation loop of lines 37-42: the exception at
the first non-string message aborts the whole build. -/
def mapLinesE : List FeedbackItem → Option (List String)
  | [] => some []
  | it :: rest =>
    match feedbackLineE it with
    | none => none
    | some l => (mapLinesE rest).map (l :: ·)

/-- `_build_feedback_instructions` with the exception propagated. -/
def build_feedback_instructionsE (base : String) (round_index : Nat)
    (items : List FeedbackItem) : Option String :=
  (mapLinesE items).map fun lines =>
    let feedback_block :=
      if lines.isEmpty then "No feedback."
      else String.intercalate "\n" lines
    base ++ "\n\n" ++
      "Feedback summary (round " ++ toString (round_index + 1) ++ "):\n" ++
      feedback_block ++ "\n\n" ++
      "Revise the plan to address the above feedback. Keep already-implemented files stable unless a blocking issue requires changes."

/-- `nextState` with the exception propagated. -/
def nextStateE (instructions : String) (round : Nat)
    (fpm : List (String × FilePlan)) (implMap : List (String × JVal))
    (st : LoopState) (p : OrchestrationPlan) (res : ImplResults)
    (fb₃ : List FeedbackItem) : Option LoopState :=
  (build_feedback_instructionsE instructions round fb₃).map fun ci =>
    { currentInstructions := ci, filePlanMap := fpm,
      implementationMap := implMap,
      iterations := st.iterations ++ [⟨p, res, fb₃⟩] }

/-- `runRound` with the exception propagated: identical branch structure,
with the next-round state construction fallible. -/
def runRoundE (instructions : String) (maxRounds round : Nat)
    (planRes : PlanResult) (outcomes : Nat → TaskOutcome) (build : Bool × String)
    (st : LoopState) : Option (Sum LoopResult LoopState) :=
  match planRes with
  | .other c => some (.inl (errorResult c st))
  | .plan p =>
    let fpm := p.files.foldl (fun m fp => pySet m fp.filename fp) st.filePlanMap
    let rm := roundCollect p outcomes st.implementationMap
    let fb := summarize_feedback rm.1 p.files
    let missing := roundMissing p rm.2
    if missing.isEmpty then
      if (fb.any (·.blocking)) = false ∧ implResultsFailed rm.1 = 0 then
        if build.1 then
          some (.inl (completedResult st p rm.1 fb rm.2 fpm build.2))
        else
          (nextStateE instructions round fpm rm.2 st p rm.1
            (fb ++ [buildItem build.2])).map .inr
      else
        if round = maxRounds - 1 ∧ (fb.any (·.blocking)) = false then
          some (.inl (softResult st p rm.1 fb rm.2 fpm))
        else
          (nextStateE instructions round fpm rm.2 st p rm.1 fb).map .inr
    else
      (nextStateE instructions round fpm rm.2 st p rm.1
        (fb ++ [missingItem missing])).map .inr

/-- `runLoopAux` with the exception propagated. -/
def runLoopAuxE (instructions : String) (maxRounds : Nat)
    (planOracle : Nat → PlanResult) (workerOracle : Nat → Nat → TaskOutcome)
    (buildOracle : Nat → Bool × String) :
    Nat → LoopState → Option LoopResult
  | 0, st => some (maxRoundsResult st)
  | r + 1, st =>
    let round := maxRounds - (r + 1)
    match runRoundE instructions maxRounds round (planOracle round)
        (workerOracle round) (buildOracle round) st with
    | none => none
    | some (.inl out) => some out
    | some (.inr st') =>
      runLoopAuxE instructions maxRounds planOracle workerOracle buildOracle r st'

/-- `run_orchestration_with_feedback` with the uncaught `AttributeError`
propagated (`none` = the coroutine raises and returns nothing). -/
def run_orchestration_with_feedbackE (instructions : String) (maxRounds : Nat)
    (planOracle : Nat → PlanResult) (workerOracle : Nat → Nat → TaskOutcome)
    (buildOracle : Nat → Bool × String) : Option LoopResult :=
  runLoopAuxE instructions maxRounds planOracle workerOracle buildOracle maxRounds
    { currentInstructions := instructions, filePlanMap := [],
      implementationMap := [], iterations := [] }

/-! ## Derived notions used in the theorems -/

/-- The filename a worker result payload carries, if any: implementation and
feedback payloads have one, error payloads and captured exceptions do not. -/
def gatherFilename : GatherItem → Option String
  | .res (.implementation f _) => some f
  | .res (.feedback f _ _) => some f
  | .res (.error _) => none
  | .exn _ => none

/-- Replay of the implementation-map writes a result list performs
(`implementation_map[impl["filename"]] = impl["content"]`). -/
def applyImpls (m : List (String × JVal)) (rs : List JuniorResult) :
    List (String × JVal) :=
  rs.foldl
    (fun m r =>
      match r with
      | .implementation f c => pySet m f c
      | _ => m)
    m

/-- The content of the last implementation-typed write for `f` in a result
list, if any. -/
def lastWriteList : List JuniorResult → String → Option JVal
  | [], _ => none
  | r :: rest, f =>
    (lastWriteList rest f).or
      (match r with
       | .implementation f' c => if f' = f then some c else none
       | _ => none)

/-- The content of the last implementation-typed write for `f` across a
sequence of recorded iterations, if any. -/
def lastWriteIters : List Iteration → String → Option JVal
  | [], _ => none
  | it :: rest, f =>
    (lastWriteIters rest f).or (lastWriteList it.results.implementations f)

/-- Whether a filename occurs in the plan's file list. -/
def isPlannedName (files : List FilePlan) (n : String) : Bool :=
  (lastIdxOf (files.map (·.filename)) n).isSome

/-! ## Sort lemmas: `sortByKey` is a stable sort -/

section SortLemmas

variable {α : Type _} (key : α → Nat)

theorem sortByKey_perm (l : List α) : (sortByKey key l).Perm l :=
  List.perm_insertionSort _ l

theorem sortByKey_sorted (l : List α) :
    (sortByKey key l).Pairwise fun a b => key a ≤ key b := by
  haveI : IsTotal α fun a b => key a ≤ key b :=
    ⟨fun a b => Nat.le_total (key a) (key b)⟩
  haveI : IsTrans α fun a b => key a ≤ key b :=
    ⟨fun _ _ _ h h' => Nat.le_trans h h'⟩
  exact List.sorted_insertionSort _ l

theorem filter_orderedInsert (k : Nat) (x : α) (l : List α) :
    (l.orderedInsert (fun a b => key a ≤ key b) x).filter (fun y => key y == k) =
      if key x = k then x :: l.filter (fun y => key y == k)
      else l.filter (fun y => key y == k) := by
  rw [List.orderedInsert_eq_take_drop, List.filter_append]
  by_cases hx : key x = k
  · have htw :
        (l.takeWhile fun b => decide ¬(key x ≤ key b)).filter
          (fun y => key y == k) = [] := by
      rw [List.filter_eq_nil_iff]
      intro a ha
      have hlt : ¬ key x ≤ key a := by simpa using List.mem_takeWhile_imp ha
      have : key a ≠ k := fun hk => hlt (hx ▸ hk ▸ Nat.le_refl _)
      simpa using this
    have hfx : (key x == k) = true := by simpa using hx
    rw [htw, List.nil_append, List.filter_cons, hfx, if_pos rfl, if_pos hx]
    congr 1
    conv_rhs => rw [← List.takeWhile_append_dropWhile
      (p := fun b => decide ¬(key x ≤ key b)) (l := l)]
    rw [List.filter_append, htw, List.nil_append]
  · have hfx : (key x == k) = false := by simpa using hx
    rw [List.filter_cons, hfx]
    simp only [Bool.false_eq_true, if_false, hx]
    conv_rhs => rw [← List.takeWhile_append_dropWhile
      (p := fun b => decide ¬(key x ≤ key b)) (l := l)]
    rw [List.filter_append]

theorem filter_sortByKey (k : Nat) (l : List α) :
    (sortByKey key l).filter (fun y => key y == k) =
      l.filter (fun y => key y == k) := by
  induction l with
  | nil => rfl
  | cons x xs ih =>
    show ((sortByKey key xs).orderedInsert (fun a b => key a ≤ key b) x).filter _ = _
    rw [filter_orderedInsert, List.filter_cons]
    by_cases hx : key x = k
    · have hfx : (key x == k) = true := by simpa using hx
      rw [if_pos hx, hfx, if_pos rfl, ih]
    · have hfx : (key x == k) = false := by simpa using hx
      rw [if_neg hx, hfx]
      simp only [Bool.false_eq_true, if_false]
      exact ih

theorem sortByKey_any (p : α → Bool) (l : List α) :
    (sortByKey key l).any p = l.any p := by
  rcases h : l.any p with _ | _
  · rw [Bool.eq_false_iff]
    intro hc
    rw [List.any_eq_true] at hc
    obtain ⟨x, hx, hp⟩ := hc
    rw [Bool.eq_false_iff] at h
    exact h (List.any_eq_true.mpr ⟨x, (sortByKey_perm key l).mem_iff.mp hx, hp⟩)
  · rw [List.any_eq_true] at h ⊢
    obtain ⟨x, hx, hp⟩ := h
    exact ⟨x, (sortByKey_perm key l).mem_iff.mpr hx, hp⟩

end SortLemmas

/-! ## Dict and collection lemmas -/

theorem pyGet_pySet {β : Type _} (m : List (String × β)) (k k' : String) (v : β) :
    pyGet (pySet m k v) k' = if k = k' then some v else pyGet m k' := by
  induction m with
  | nil =>
    by_cases h : k = k'
    · simp [pyGet, pySet, h]
    · have hb : (k == k') = false := by simpa using h
      simp [pyGet, pySet, List.find?, h, hb]
  | cons p rest ih =>
    obtain ⟨k₀, v₀⟩ := p
    by_cases h0 : k₀ = k
    · subst h0
      by_cases h : k₀ = k'
      · subst h
        simp [pyGet, pySet, List.find?]
      · have hb : (k₀ == k') = false := by simpa using h
        simp [pyGet, pySet, List.find?, h, hb]
    · by_cases h : k₀ = k'
      · subst h
        have hne : ¬ k = k₀ := fun hc => h0 hc.symm
        simp [pyGet, pySet, List.find?, if_neg h0, hne]
      · have hb : (k₀ == k') = false := by simpa using h
        simp only [pySet, if_neg h0]
        simp only [pyGet, List.find?, hb] at ih ⊢
        exact ih

theorem pyGet_applyImpls (rs : List JuniorResult) :
    ∀ (m : List (String × JVal)) (f : String),
      pyGet (applyImpls m rs) f = (lastWriteList rs f).or (pyGet m f) := by
  induction rs with
  | nil => intro m f; rfl
  | cons r rest ih =>
    intro m f
    have hstep :
        applyImpls m (r :: rest) =
          applyImpls
            (match r with
             | .implementation f' c => pySet m f' c
             | _ => m) rest := rfl
    rw [hstep, ih]
    show _ = ((lastWriteList rest f).or _).or _
    rw [Option.or_assoc]
    congr 1
    cases r with
    | implementation f' c =>
      by_cases h : f' = f
      · simp [pyGet_pySet, h]
      · simp [pyGet_pySet, h]
    | feedback f' msg b => rfl
    | error c => rfl

/-- The accumulator invariant of the fold at lines 162-168: the fold extends
the payload and error lists and replays the implementation-typed writes on
the cumulative map. -/
theorem collect_invariant (items : List GatherItem) :
    ∀ acc : ImplResults × List (String × JVal),
      ∃ rs es,
        (items.foldl collectStep acc).1.implementations =
            acc.1.implementations ++ rs ∧
          (items.foldl collectStep acc).1.errors = acc.1.errors ++ es ∧
          (items.foldl collectStep acc).2 = applyImpls acc.2 rs := by
  induction items with
  | nil => intro acc; exact ⟨[], [], by simp, by simp, rfl⟩
  | cons it rest ih =>
    intro acc
    obtain ⟨rs', es', h1, h2, h3⟩ := ih (collectStep acc it)
    rw [List.foldl_cons]
    cases it with
    | exn msg =>
      refine ⟨rs', ("unknown", msg) :: es', ?_, ?_, ?_⟩
      · simpa [collectStep] using h1
      · simpa [collectStep] using h2
      · simpa [collectStep] using h3
    | res r =>
      refine ⟨r :: rs', es', ?_, ?_, ?_⟩
      · cases r <;> simpa [collectStep] using h1
      · cases r <;> simpa [collectStep] using h2
      · cases r <;> simpa [collectStep, applyImpls] using h3

theorem collectResults_map (items : List GatherItem) (m : List (String × JVal)) :
    (collectResults items m).2 =
      applyImpls m (collectResults items m).1.implementations := by
  obtain ⟨rs, es, h1, h2, h3⟩ := collect_invariant items (⟨[], []⟩, m)
  unfold collectResults
  rw [h3, h1]
  rfl

/-- When every gathered item is a blocking feedback payload, the collected
payload list consists exactly of those payloads. -/
theorem collect_all_feedback (items : List GatherItem)
    (hall : ∀ g ∈ items, ∃ f msg, g = GatherItem.res (.feedback f msg true)) :
    ∀ acc : ImplResults × List (String × JVal),
      ∃ rs, (items.foldl collectStep acc).1.implementations =
          acc.1.implementations ++ rs ∧
        rs.length = items.length ∧
        ∀ r ∈ rs, ∃ f msg, r = JuniorResult.feedback f msg true := by
  induction items with
  | nil => intro acc; exact ⟨[], by simp, rfl, by simp⟩
  | cons it rest ih =>
    intro acc
    obtain ⟨f, msg, hit⟩ := hall it (List.mem_cons_self it rest)
    subst hit
    obtain ⟨rs', h1, h2, h3⟩ :=
      ih (fun g hg => hall g (List.mem_cons_of_mem _ hg))
        (collectStep acc (.res (.feedback f msg true)))
    refine ⟨.feedback f msg true :: rs', ?_, by simp [h2], ?_⟩
    · rw [List.foldl_cons]
      simpa [collectStep] using h1
    · intro r hr
      rcases List.mem_cons.mp hr with h | h
      · exact ⟨f, msg, h⟩
      · exact h3 r h

/-- A blocking feedback payload among the results makes the summarized
digest carry a blocking item. -/
theorem summarize_any_blocking (res : ImplResults) (plan_files : List FilePlan)
    (r : JuniorResult) (hr : r ∈ res.implementations)
    (f : String) (msg : JVal) (hfb : r = .feedback f msg true) :
    (summarize_feedback res plan_files).any (·.blocking) = true := by
  unfold summarize_feedback
  rw [sortByKey_any]
  rw [List.any_eq_true]
  refine ⟨⟨f, msg, true⟩, ?_, rfl⟩
  apply List.mem_append_left
  exact List.mem_filterMap.mpr ⟨r, hr, by rw [hfb]⟩

/-! ## Round-step characterization lemmas -/

theorem runRound_inl_status {I : String} {M ρ : Nat} {pr : PlanResult}
    {o : Nat → TaskOutcome} {b : Bool × String} {st : LoopState} {out : LoopResult}
    (h : runRound I M ρ pr o b st = .inl out) :
    out.status ≠ some .softLimitReached := by
  cases pr with
  | other c =>
    simp only [runRound] at h
    cases h
    simp [errorResult]
  | plan p =>
    simp only [runRound] at h
    split_ifs at h with hm hc hb hs
    all_goals
      simp_all [completedResult, softResult, errorResult, implResultsFailed]
    all_goals (subst h; simp)

theorem runRound_inr {I : String} {M ρ : Nat} {pr : PlanResult}
    {o : Nat → TaskOutcome} {b : Bool × String} {st st' : LoopState}
    (h : runRound I M ρ pr o b st = .inr st') :
    ∃ it : Iteration, st'.iterations = st.iterations ++ [it] ∧
      st'.implementationMap =
        applyImpls st.implementationMap it.results.implementations := by
  cases pr with
  | other c => simp [runRound] at h
  | plan p =>
    have hmap : (roundCollect p o st.implementationMap).2 =
        applyImpls st.implementationMap
          (roundCollect p o st.implementationMap).1.implementations :=
      collectResults_map _ _
    simp only [runRound] at h
    split_ifs at h with hm hc hb hs
    all_goals
      first
        | exact Sum.noConfusion h
        | (injection h with h'; subst h'; exact ⟨_, rfl, hmap⟩)

theorem runRound_inl_iterations {I : String} {M ρ : Nat} {pr : PlanResult}
    {o : Nat → TaskOutcome} {b : Bool × String} {st : LoopState} {out : LoopResult}
    (h : runRound I M ρ pr o b st = .inl out) :
    out.iterations = st.iterations ∨
      ∃ it : Iteration, out.iterations = st.iterations ++ [it] := by
  cases pr with
  | other c =>
    simp only [runRound] at h
    injection h with h'
    subst h'
    exact Or.inl rfl
  | plan p =>
    simp only [runRound] at h
    split_ifs at h with hm hc hb hs
    all_goals
      first
        | exact Sum.noConfusion h
        | (injection h with h'; subst h'; exact Or.inr ⟨_, rfl⟩)

theorem runRound_inl_impl {I : String} {M ρ : Nat} {pr : PlanResult}
    {o : Nat → TaskOutcome} {b : Bool × String} {st : LoopState} {out : LoopResult}
    (h : runRound I M ρ pr o b st = .inl out) (m : List (String × JVal))
    (hm : out.implementations = some m) :
    ∃ it : Iteration, out.iterations = st.iterations ++ [it] ∧
      m = applyImpls st.implementationMap it.results.implementations := by
  cases pr with
  | other c =>
    simp only [runRound] at h
    injection h with h'
    subst h'
    simp [errorResult] at hm
  | plan p =>
    have hmap : (roundCollect p o st.implementationMap).2 =
        applyImpls st.implementationMap
          (roundCollect p o st.implementationMap).1.implementations :=
      collectResults_map _ _
    simp only [runRound] at h
    split_ifs at h with hmiss hc hb hs
    all_goals
      first
        | exact Sum.noConfusion h
        | (injection h with h'; subst h';
           refine ⟨_, rfl, ?_⟩
           simp only [completedResult, softResult] at hm
           injection hm with hm'
           subst hm'
           exact hmap)

theorem runRound_inl_error {I : String} {M ρ : Nat} {pr : PlanResult}
    {o : Nat → TaskOutcome} {b : Bool × String} {st : LoopState} {out : LoopResult}
    (h : runRound I M ρ pr o b st = .inl out) (he : out.isError = true) :
    ∃ c, pr = .other c ∧ out = errorResult c st := by
  cases pr with
  | other c =>
    simp only [runRound] at h
    injection h with h'
    subst h'
    exact ⟨c, rfl, rfl⟩
  | plan p =>
    simp only [runRound] at h
    split_ifs at h with hm hc hb hs
    all_goals
      first
        | exact Sum.noConfusion h
        | (injection h with h'; subst h'; simp [completedResult, softResult] at he)

theorem run_juniors_length (files : List FilePlan) (o : Nat → TaskOutcome) :
    (run_juniors_parallel files o).length = files.length := by
  simp [run_juniors_parallel]

theorem runRound_blocked {I : String} {M ρ : Nat}
    {o : Nat → TaskOutcome} {b : Bool × String} {s : LoopState}
    (p : OrchestrationPlan) (hne : p.files ≠ [])
    (hall : ∀ g ∈ run_juniors_parallel p.files o,
      ∃ f msg, g = GatherItem.res (.feedback f msg true)) :
    ∃ st', runRound I M ρ (.plan p) o b s = .inr st' := by
  have hlen : (run_juniors_parallel p.files o).length ≠ 0 := by
    rw [run_juniors_length]
    simpa using hne
  obtain ⟨rs, h1, h2, h3⟩ :=
    collect_all_feedback (run_juniors_parallel p.files o) hall
      (⟨[], []⟩, s.implementationMap)
  have hrs : (roundCollect p o s.implementationMap).1.implementations = rs := by
    simpa [roundCollect, collectResults] using h1
  have hne' : rs ≠ [] := by
    intro hc
    rw [hc] at h2
    exact hlen h2.symm
  obtain ⟨r, rs', hcons⟩ := List.exists_cons_of_ne_nil hne'
  obtain ⟨f, msg, hfb⟩ := h3 r (hcons ▸ List.mem_cons_self r rs')
  have hany : ((summarize_feedback (roundCollect p o s.implementationMap).1
      p.files).any (·.blocking)) = true :=
    summarize_any_blocking _ _ r (hrs ▸ hcons ▸ List.mem_cons_self r rs') f msg hfb
  simp only [runRound]
  split_ifs with hm hc hb hs
  · exact absurd hc.1 (by simp [hany])
  · exact absurd hc.1 (by simp [hany])
  · exact absurd hs.2 (by simp [hany])
  · exact ⟨_, rfl⟩
  · exact ⟨_, rfl⟩

theorem runRound_missing {I : String} {M ρ : Nat}
    {o : Nat → TaskOutcome} {b : Bool × String} {st : LoopState}
    (p : OrchestrationPlan)
    (hmiss : roundMissing p (roundCollect p o st.implementationMap).2 ≠ []) :
    runRound I M ρ (.plan p) o b st =
      .inr (nextState I ρ
        (p.files.foldl (fun m fp => pySet m fp.filename fp) st.filePlanMap)
        (roundCollect p o st.implementationMap).2 st p
        (roundCollect p o st.implementationMap).1
        (summarize_feedback (roundCollect p o st.implementationMap).1 p.files ++
          [missingItem (roundMissing p (roundCollect p o st.implementationMap).2)])) := by
  simp only [runRound]
  rw [if_neg (by simp [List.isEmpty_iff, hmiss])]

/-! ## Loop-level invariants -/

theorem runLoopAux_length (I : String) (M : Nat) (po : Nat → PlanResult)
    (wo : Nat → Nat → TaskOutcome) (bo : Nat → Bool × String) :
    ∀ (r : Nat) (st : LoopState),
      (runLoopAux I M po wo bo r st).iterations.length ≤
        st.iterations.length + r := by
  intro r
  induction r with
  | zero => intro st; simp [runLoopAux, maxRoundsResult]
  | succ r ih =>
    intro st
    simp only [runLoopAux]
    cases hrr : runRound I M (M - (r + 1)) (po (M - (r + 1))) (wo (M - (r + 1)))
        (bo (M - (r + 1))) st with
    | inl out =>
      rcases runRound_inl_iterations hrr with hit | ⟨it, hit⟩ <;> simp [hit]
    | inr st' =>
      have hlen := ih st'
      obtain ⟨it, hit, -⟩ := runRound_inr hrr
      rw [hit] at hlen
      simp at hlen ⊢
      omega

theorem runLoopAux_not_soft (I : String) (M : Nat) (po : Nat → PlanResult)
    (wo : Nat → Nat → TaskOutcome) (bo : Nat → Bool × String) :
    ∀ (r : Nat) (st : LoopState),
      (runLoopAux I M po wo bo r st).status ≠ some .softLimitReached := by
  intro r
  induction r with
  | zero => intro st; simp [runLoopAux, maxRoundsResult]
  | succ r ih =>
    intro st
    simp only [runLoopAux]
    cases hrr : runRound I M (M - (r + 1)) (po (M - (r + 1))) (wo (M - (r + 1)))
        (bo (M - (r + 1))) st with
    | inl out => exact runRound_inl_status hrr
    | inr st' => exact ih st'

theorem runLoopAux_implMap (I : String) (M : Nat) (po : Nat → PlanResult)
    (wo : Nat → Nat → TaskOutcome) (bo : Nat → Bool × String) :
    ∀ (r : Nat) (st : LoopState) (m : List (String × JVal)),
      (runLoopAux I M po wo bo r st).implementations = some m →
      ∃ tail, (runLoopAux I M po wo bo r st).iterations = st.iterations ++ tail ∧
        ∀ f, pyGet m f =
          (lastWriteIters tail f).or (pyGet st.implementationMap f) := by
  intro r
  induction r with
  | zero =>
    intro st m hm
    simp only [runLoopAux, maxRoundsResult] at hm ⊢
    injection hm with hm'
    subst hm'
    exact ⟨[], by simp, fun f => rfl⟩
  | succ r ih =>
    intro st m hm
    simp only [runLoopAux] at hm ⊢
    cases hrr : runRound I M (M - (r + 1)) (po (M - (r + 1))) (wo (M - (r + 1)))
        (bo (M - (r + 1))) st with
    | inl out =>
      rw [hrr] at hm
      obtain ⟨it, hit, hmap⟩ := runRound_inl_impl hrr m hm
      refine ⟨[it], hit, fun f => ?_⟩
      rw [hmap, pyGet_applyImpls]
      rfl
    | inr st' =>
      rw [hrr] at hm
      obtain ⟨tail', htail, hget⟩ := ih st' m hm
      obtain ⟨it, hit, hmap⟩ := runRound_inr hrr
      refine ⟨it :: tail', ?_, fun f => ?_⟩
      · show (runLoopAux I M po wo bo r st').iterations = _
        rw [htail, hit]
        simp
      · rw [hget f, hmap, pyGet_applyImpls]
        show _ = ((lastWriteIters tail' f).or _).or _
        rw [Option.or_assoc]

theorem runLoopAux_blocked (I : String) (M : Nat) (po : Nat → PlanResult)
    (wo : Nat → Nat → TaskOutcome) (bo : Nat → Bool × String)
    (hp : ∀ i, i < M → ∃ p, po i = .plan p ∧ p.files ≠ [] ∧
      ∀ g ∈ run_juniors_parallel p.files (wo i),
        ∃ f msg, g = GatherItem.res (.feedback f msg true)) :
    ∀ (r : Nat) (st : LoopState), r ≤ M →
      (runLoopAux I M po wo bo r st).status = some .maxRoundsReached ∧
        (runLoopAux I M po wo bo r st).iterations.length =
          st.iterations.length + r := by
  intro r
  induction r with
  | zero => intro st _; simp [runLoopAux, maxRoundsResult]
  | succ r ih =>
    intro st hr
    have hround : M - (r + 1) < M := by omega
    obtain ⟨p, hpo, hne, hall⟩ := hp (M - (r + 1)) hround
    obtain ⟨st', hrr⟩ :=
      runRound_blocked (I := I) (M := M) (ρ := M - (r + 1))
        (o := wo (M - (r + 1))) (b := bo (M - (r + 1))) (s := st) p hne hall
    simp only [runLoopAux]
    rw [hpo, hrr]
    obtain ⟨it, hit, -⟩ := runRound_inr hrr
    obtain ⟨hstat, hlen⟩ := ih st' (by omega)
    refine ⟨hstat, ?_⟩
    rw [hlen, hit]
    simp
    omega

theorem runLoopAux_error (I : String) (M : Nat) (po : Nat → PlanResult)
    (wo : Nat → Nat → TaskOutcome) (bo : Nat → Bool × String) :
    ∀ (r : Nat) (st : LoopState), st.iterations.length + r = M →
      (runLoopAux I M po wo bo r st).isError = true →
      ∃ c, (runLoopAux I M po wo bo r st).content = some c ∧
        po ((runLoopAux I M po wo bo r st).iterations.length) = .other c := by
  intro r
  induction r with
  | zero =>
    intro st _ he
    simp [runLoopAux, maxRoundsResult] at he
  | succ r ih =>
    intro st hinv he
    simp only [runLoopAux] at he ⊢
    cases hrr : runRound I M (M - (r + 1)) (po (M - (r + 1))) (wo (M - (r + 1)))
        (bo (M - (r + 1))) st with
    | inl out =>
      rw [hrr] at he
      obtain ⟨c, hpo, hout⟩ := runRound_inl_error hrr he
      subst hout
      refine ⟨c, rfl, ?_⟩
      have hlen : st.iterations.length = M - (r + 1) := by omega
      simpa [errorResult, hlen] using hpo
    | inr st' =>
      rw [hrr] at he
      obtain ⟨it, hit, -⟩ := runRound_inr hrr
      refine ih st' ?_ he
      rw [hit]
      simp
      omega

theorem lastWriteIters_of_none (f : String) :
    ∀ post : List Iteration,
      (∀ it ∈ post, lastWriteList it.results.implementations f = none) →
      lastWriteIters post f = none := by
  intro post
  induction post with
  | nil => intro _; rfl
  | cons it rest ih =>
    intro h
    show (lastWriteIters rest f).or _ = none
    rw [ih fun it' h' => h it' (List.mem_cons_of_mem _ h'),
      h it (List.mem_cons_self it rest)]
    rfl

theorem lastWriteIters_append (f : String) (pre : List Iteration)
    (it : Iteration) (post : List Iteration) (c : JVal)
    (hw : lastWriteList it.results.implementations f = some c)
    (hpost : lastWriteIters post f = none) :
    lastWriteIters (pre ++ it :: post) f = some c := by
  induction pre with
  | nil =>
    show (lastWriteIters post f).or _ = some c
    rw [hpost, hw]
    rfl
  | cons p rest ih =>
    show (lastWriteIters (rest ++ it :: post) f).or _ = some c
    rw [ih]
    rfl

/-! ## Agreement between the crash-faithful and the total renderings -/

theorem feedbackLineE_eq (it : FeedbackItem) (h : ∃ s, it.message = JVal.str s) :
    feedbackLineE it = some (feedbackLine it) := by
  obtain ⟨f, m, b⟩ := it
  obtain ⟨s, hs⟩ := h
  have hm : m = JVal.str s := hs
  subst hm
  rfl

theorem feedbackLineE_some (it : FeedbackItem) (l : String)
    (h : feedbackLineE it = some l) : l = feedbackLine it := by
  obtain ⟨f, m, b⟩ := it
  cases m with
  | str s => exact (Option.some.inj h).symm
  | num n => exact Option.noConfusion h
  | bool v => exact Option.noConfusion h
  | null => exact Option.noConfusion h
  | arr xs => exact Option.noConfusion h
  | obj kvs => exact Option.noConfusion h

theorem mapLinesE_str (items : List FeedbackItem)
    (h : ∀ it ∈ items, ∃ s, it.message = JVal.str s) :
    mapLinesE items = some (items.map feedbackLine) := by
  induction items with
  | nil => rfl
  | cons it rest ih =>
    simp only [mapLinesE, List.map_cons]
    rw [feedbackLineE_eq it (h it (List.mem_cons_self it rest)),
      ih (fun x hx => h x (List.mem_cons_of_mem _ hx))]
    rfl

theorem mapLinesE_some (items : List FeedbackItem) :
    ∀ ls, mapLinesE items = some ls → ls = items.map feedbackLine := by
  induction items with
  | nil =>
    intro ls h
    rw [List.map_nil]
    exact (Option.some.inj h).symm
  | cons it rest ih =>
    intro ls h
    simp only [mapLinesE] at h
    cases hfl : feedbackLineE it with
    | none => rw [hfl] at h; exact Option.noConfusion h
    | some l =>
      rw [hfl] at h
      cases hml : mapLinesE rest with
      | none => rw [hml] at h; exact Option.noConfusion h
      | some ls2 =>
        rw [hml] at h
        obtain rfl : ls = l :: ls2 := ((Option.some.inj h)).symm
        rw [List.map_cons, ih ls2 hml, feedbackLineE_some it l hfl]

theorem buildE_str (base : String) (ri : Nat) (items : List FeedbackItem)
    (h : ∀ it ∈ items, ∃ s, it.message = JVal.str s) :
    build_feedback_instructionsE base ri items =
      some (build_feedback_instructions base ri items) := by
  unfold build_feedback_instructionsE build_feedback_instructions
  rw [mapLinesE_str items h]
  cases items with
  | nil => rfl
  | cons a l => rfl

theorem buildE_some (base : String) (ri : Nat) (items : List FeedbackItem) :
    ∀ s, build_feedback_instructionsE base ri items = some s →
      s = build_feedback_instructions base ri items := by
  intro s h
  unfold build_feedback_instructionsE at h
  cases hml : mapLinesE items with
  | none => rw [hml] at h; exact Option.noConfusion h
  | some ls =>
    rw [hml] at h
    obtain rfl := mapLinesE_some items ls hml
    have hs := Option.some.inj h
    rw [← hs]
    unfold build_feedback_instructions
    cases items with
    | nil => rfl
    | cons a l => rfl

theorem nextStateE_str (I : String) (ρ : Nat) (fpm : List (String × FilePlan))
    (im : List (String × JVal)) (st : LoopState) (p : OrchestrationPlan)
    (res : ImplResults) (fb₃ : List FeedbackItem)
    (h : ∀ it ∈ fb₃, ∃ s, it.message = JVal.str s) :
    nextStateE I ρ fpm im st p res fb₃ =
      some (nextState I ρ fpm im st p res fb₃) := by
  unfold nextStateE nextState
  rw [buildE_str I ρ fb₃ h]
  rfl

theorem nextStateE_some (I : String) (ρ : Nat) (fpm : List (String × FilePlan))
    (im : List (String × JVal)) (st : LoopState) (p : OrchestrationPlan)
    (res : ImplResults) (fb₃ : List FeedbackItem) :
    ∀ s2, nextStateE I ρ fpm im st p res fb₃ = some s2 →
      s2 = nextState I ρ fpm im st p res fb₃ := by
  intro s2 h
  unfold nextStateE at h
  cases hb : build_feedback_instructionsE I ρ fb₃ with
  | none => rw [hb] at h; exact Option.noConfusion h
  | some ci =>
    rw [hb] at h
    obtain rfl := buildE_some I ρ fb₃ ci hb
    exact (Option.some.inj h).symm

/-- Every gathered item a blocking feedback payload with a string message:
the collected payload list is exactly those payloads and no errors are
recorded. -/
theorem collect_all_feedback_str (items : List GatherItem)
    (hall : ∀ g ∈ items, ∃ f x, g = GatherItem.res (.feedback f (JVal.str x) true)) :
    ∀ acc : ImplResults × List (String × JVal),
      ∃ rs, (items.foldl collectStep acc).1.implementations =
          acc.1.implementations ++ rs ∧
        (items.foldl collectStep acc).1.errors = acc.1.errors ∧
        ∀ r ∈ rs, ∃ f x, r = JuniorResult.feedback f (JVal.str x) true := by
  induction items with
  | nil => intro acc; exact ⟨[], by simp, rfl, by simp⟩
  | cons it rest ih =>
    intro acc
    obtain ⟨f, x, hit⟩ := hall it (List.mem_cons_self it rest)
    subst hit
    obtain ⟨rs2, h1, h2, h3⟩ :=
      ih (fun g hg => hall g (List.mem_cons_of_mem _ hg))
        (collectStep acc (.res (.feedback f (JVal.str x) true)))
    refine ⟨.feedback f (JVal.str x) true :: rs2, ?_, ?_, ?_⟩
    · rw [List.foldl_cons]
      simpa [collectStep] using h1
    · rw [List.foldl_cons]
      simpa [collectStep] using h2
    · intro r hr
      rcases List.mem_cons.mp hr with h | h
      · exact ⟨f, x, h⟩
      · exact h3 r h

/-- With only string-message blocking feedback gathered, every summarized
item's message is a string. -/
theorem collect_str_msgs (items : List GatherItem)
    (hall : ∀ g ∈ items, ∃ f x, g = GatherItem.res (.feedback f (JVal.str x) true))
    (m : List (String × JVal)) :
    ∀ it ∈ combinedItems (collectResults items m).1,
      ∃ s, it.message = JVal.str s := by
  obtain ⟨rs, h1, h2, h3⟩ := collect_all_feedback_str items hall (⟨[], []⟩, m)
  have himp : (collectResults items m).1.implementations = rs := by
    simpa [collectResults] using h1
  have herr : (collectResults items m).1.errors = [] := by
    simpa [collectResults] using h2
  intro it hit
  unfold combinedItems at hit
  rcases List.mem_append.mp hit with h | h
  · obtain ⟨r, hr, hmr⟩ := List.mem_filterMap.mp h
    rw [himp] at hr
    obtain ⟨f, x, hfx⟩ := h3 r hr
    subst hfx
    have hit2 : it = ⟨f, JVal.str x, true⟩ := (Option.some.inj hmr).symm
    rw [hit2]
    exact ⟨x, rfl⟩
  · obtain ⟨e, he, hme⟩ := List.mem_map.mp h
    rw [herr] at he
    exact absurd he (List.not_mem_nil e)

theorem summarize_str_msgs (p : OrchestrationPlan) (o : Nat → TaskOutcome)
    (m : List (String × JVal))
    (hall : ∀ g ∈ run_juniors_parallel p.files o,
      ∃ f x, g = GatherItem.res (.feedback f (JVal.str x) true)) :
    ∀ it ∈ summarize_feedback (roundCollect p o m).1 p.files,
      ∃ s, it.message = JVal.str s := by
  intro it hit
  have hmem : it ∈ combinedItems (roundCollect p o m).1 :=
    (sortByKey_perm (sortKeyOf p.files)
      (combinedItems (roundCollect p o m).1)).mem_iff.mp hit
  exact collect_str_msgs (run_juniors_parallel p.files o) hall m it hmem

/-- When every summarized message of the round is a string, the
crash-faithful round agrees with the total round. -/
theorem runRoundE_agree (I : String) (M ρ : Nat) (q : PlanResult)
    (o : Nat → TaskOutcome) (b : Bool × String) (s : LoopState)
    (hstr : ∀ p, q = .plan p →
      ∀ it ∈ summarize_feedback (roundCollect p o s.implementationMap).1 p.files,
        ∃ x, it.message = JVal.str x) :
    runRoundE I M ρ q o b s = some (runRound I M ρ q o b s) := by
  cases q with
  | other c => rfl
  | plan p =>
    have hfb := hstr p rfl
    simp only [runRound, runRoundE]
    split_ifs with h1 h2 h3 h4
    · rfl
    · have hm2 : ∀ it ∈ summarize_feedback
          (roundCollect p o s.implementationMap).1 p.files ++ [buildItem b.2],
          ∃ x, it.message = JVal.str x := by
        intro it hit
        rcases List.mem_append.mp hit with h5 | h5
        · exact hfb it h5
        · rw [List.mem_singleton.mp h5]
          exact ⟨takeChars b.2 2000, rfl⟩
      rw [nextStateE_str _ _ _ _ _ _ _ _ hm2]
      rfl
    · rfl
    · rw [nextStateE_str _ _ _ _ _ _ _ _ hfb]
      rfl
    · have hm2 : ∀ it ∈ summarize_feedback
          (roundCollect p o s.implementationMap).1 p.files ++
            [missingItem (roundMissing p (roundCollect p o s.implementationMap).2)],
          ∃ x, it.message = JVal.str x := by
        intro it hit
        rcases List.mem_append.mp hit with h5 | h5
        · exact hfb it h5
        · rw [List.mem_singleton.mp h5]
          exact ⟨"Missing implementations for planned files", rfl⟩
      rw [nextStateE_str _ _ _ _ _ _ _ _ hm2]
      rfl

/-- Whenever the crash-faithful round returns at all, it returns the total
round's outcome. -/
theorem runRoundE_some (I : String) (M ρ : Nat) (q : PlanResult)
    (o : Nat → TaskOutcome) (b : Bool × String) (s : LoopState)
    (x : Sum LoopResult LoopState)
    (h : runRoundE I M ρ q o b s = some x) :
    x = runRound I M ρ q o b s := by
  cases q with
  | other c => exact (Option.some.inj h).symm
  | plan p =>
    simp only [runRoundE] at h
    simp only [runRound]
    split_ifs at h ⊢ with h1 h2 h3 h4
    · exact (Option.some.inj h).symm
    · rcases Option.map_eq_some'.mp h with ⟨s2, hs2, rfl⟩
      rw [nextStateE_some _ _ _ _ _ _ _ _ s2 hs2]
    · exact (Option.some.inj h).symm
    · rcases Option.map_eq_some'.mp h with ⟨s2, hs2, rfl⟩
      rw [nextStateE_some _ _ _ _ _ _ _ _ s2 hs2]
    · rcases Option.map_eq_some'.mp h with ⟨s2, hs2, rfl⟩
      rw [nextStateE_some _ _ _ _ _ _ _ _ s2 hs2]

/-- Whenever the program returns a value, it is the total model's value. -/
theorem runLoopAuxE_some (I : String) (M : Nat) (po : Nat → PlanResult)
    (wo : Nat → Nat → TaskOutcome) (bo : Nat → Bool × String) :
    ∀ (r : Nat) (st : LoopState) (out : LoopResult),
      runLoopAuxE I M po wo bo r st = some out →
      out = runLoopAux I M po wo bo r st := by
  intro r
  induction r with
  | zero => intro st out h; exact (Option.some.inj h).symm
  | succ r ih =>
    intro st out h
    simp only [runLoopAuxE] at h
    simp only [runLoopAux]
    cases hrr : runRoundE I M (M - (r + 1)) (po (M - (r + 1)))
        (wo (M - (r + 1))) (bo (M - (r + 1))) st with
    | none => rw [hrr] at h; exact Option.noConfusion h
    | some x =>
      rw [hrr] at h
      rw [← runRoundE_some I M (M - (r + 1)) (po (M - (r + 1)))
        (wo (M - (r + 1))) (bo (M - (r + 1))) st x hrr]
      cases x with
      | inl o1 => exact (Option.some.inj h).symm
      | inr st2 => exact ih st2 out h

/-- Under per-round nonempty plans and blocking string-message feedback
from every worker, the program completes all rounds without raising and
agrees with the total model. -/
theorem runLoopAuxE_blocked (I : String) (M : Nat) (po : Nat → PlanResult)
    (wo : Nat → Nat → TaskOutcome) (bo : Nat → Bool × String)
    (hp : ∀ i, i < M → ∃ p, po i = .plan p ∧ p.files ≠ [] ∧
      ∀ g ∈ run_juniors_parallel p.files (wo i),
        ∃ f x, g = GatherItem.res (.feedback f (JVal.str x) true)) :
    ∀ (r : Nat) (st : LoopState), r ≤ M →
      runLoopAuxE I M po wo bo r st = some (runLoopAux I M po wo bo r st) := by
  intro r
  induction r with
  | zero => intro st _; rfl
  | succ r ih =>
    intro st hr
    obtain ⟨p, hpo, hne, hall⟩ := hp (M - (r + 1)) (by omega)
    have hall' : ∀ g ∈ run_juniors_parallel p.files (wo (M - (r + 1))),
        ∃ f msg, g = GatherItem.res (.feedback f msg true) := by
      intro g hg
      obtain ⟨f, x, hfm⟩ := hall g hg
      exact ⟨f, JVal.str x, hfm⟩
    obtain ⟨st', hrr⟩ := runRound_blocked (I := I) (M := M) (ρ := M - (r + 1))
      (o := wo (M - (r + 1))) (b := bo (M - (r + 1))) (s := st) p hne hall'
    have hstr : ∀ q2, PlanResult.plan p = PlanResult.plan q2 →
        ∀ it ∈ summarize_feedback
            (roundCollect q2 (wo (M - (r + 1))) st.implementationMap).1 q2.files,
          ∃ z, it.message = JVal.str z := by
      intro q2 hq2
      injection hq2 with hq
      subst hq
      exact summarize_str_msgs p (wo (M - (r + 1))) st.implementationMap hall
    simp only [runLoopAuxE, runLoopAux]
    rw [hpo]
    rw [runRoundE_agree I M (M - (r + 1)) (.plan p) (wo (M - (r + 1)))
      (bo (M - (r + 1))) st hstr]
    rw [hrr]
    exact ih st' (by omega)

/-! ## Test fixtures (mirroring the repository's test plans) -/

def mkFilePlan (name : String) : FilePlan :=
  ⟨"src/pages", name, [⟨name, "Test component"⟩], [], "", []⟩

def demoStyle : GlobalStyle := ⟨"Test neutrals", "Test description"⟩

def planFoo : OrchestrationPlan := ⟨demoStyle, [mkFilePlan "Foo.tsx"]⟩

/-- A blocking feedback reply, as in the repository's feedback-loop test. -/
def fbReplyFoo : String :=
  "\x7b\"type\":\"feedback\",\"blocking\":true,\"message\":\"Need design tokens\",\"filename\":\"Foo.tsx\"\x7d"

/-- A blocking feedback reply whose `message` is JSON `null`:
`implement_component` stores the `None` verbatim, and
`_build_feedback_instructions` then raises `AttributeError` on
`None.strip()`. -/
def fbNullMsg : String :=
  "\x7b\"type\":\"feedback\",\"blocking\":true,\"message\":null,\"filename\":\"Foo.tsx\"\x7d"

/-! ## Claim theorems -/

/-- C9: no execution of the feedback loop terminates with status
`soft_limit_reached`: whenever a round ends non-blocking with no missing
planned files, the build verification either completes the loop or adds a
blocking build item first, so the soft-limit branch is unreachable for every
choice of plan, worker and build collaborator behaviour and every round
budget. -/
theorem claim_C9_soft_limit_unreachable (instructions : String)
    (maxRounds : Nat) (planOracle : Nat → PlanResult)
    (workerOracle : Nat → Nat → TaskOutcome) (buildOracle : Nat → Bool × String) :
    (run_orchestration_with_feedback instructions maxRounds planOracle
        workerOracle buildOracle).status ≠ some .softLimitReached :=
  runLoopAux_not_soft instructions maxRounds planOracle workerOracle buildOracle
    maxRounds _

/-- C3 (counterexample): every worker in the single gathered result returns
blocking feedback every round — the original claim's premise — yet with the
feedback `message` being JSON `null` the program raises an uncaught
`AttributeError` (`None.strip()` in `_build_feedback_instructions`) in
round 1 and returns nothing, instead of executing `max_rounds` rounds and
returning `max_rounds_reached`; the total model that collapses the crash
would have returned `max_rounds_reached`. -/
theorem claim_C3_counterexample :
    run_juniors_parallel planFoo.files
        (fun _ => TaskOutcome.ok (.success fbNullMsg)) =
      [GatherItem.res (.feedback "Foo.tsx" JVal.null true)] ∧
    run_orchestration_with_feedbackE "Build UI" 2 (fun _ => .plan planFoo)
      (fun _ _ => .ok (.success fbNullMsg)) (fun _ => (true, "ok")) = none ∧
    (run_orchestration_with_feedback "Build UI" 2 (fun _ => .plan planFoo)
      (fun _ _ => .ok (.success fbNullMsg))
      (fun _ => (true, "ok"))).status = some .maxRoundsReached :=
  ⟨rfl, rfl, rfl⟩

/-- C3 (amended): if every round's plan generation yields a plan with at
least one file and every per-file worker result classifies as blocking
feedback whose message is a string, the loop raises nothing — the
crash-faithful run returns exactly the total model's result — and runs
exactly `max_rounds` rounds, returning `max_rounds_reached` with
`len(iterations) == max_rounds` (with a non-string message the program
instead aborts on an uncaught `AttributeError`; see the counterexample).
Moreover any value the crash-faithful run returns is the total model's
value, and, unconditionally, no execution records more than `max_rounds`
iterations. -/
theorem claim_C3_max_rounds_reached :
    (∀ (instructions : String) (maxRounds : Nat) (po : Nat → PlanResult)
        (wo : Nat → Nat → TaskOutcome) (bo : Nat → Bool × String),
      (∀ i, i < maxRounds → ∃ p, po i = .plan p ∧ p.files ≠ [] ∧
          ∀ g ∈ run_juniors_parallel p.files (wo i),
            ∃ f m, g = GatherItem.res (.feedback f (JVal.str m) true)) →
      run_orchestration_with_feedbackE instructions maxRounds po wo bo =
          some (run_orchestration_with_feedback instructions maxRounds po wo
            bo) ∧
        (run_orchestration_with_feedback instructions maxRounds po wo
            bo).status = some .maxRoundsReached ∧
        (run_orchestration_with_feedback instructions maxRounds po wo
            bo).iterations.length = maxRounds) ∧
    (∀ (instructions : String) (maxRounds : Nat) (po : Nat → PlanResult)
        (wo : Nat → Nat → TaskOutcome) (bo : Nat → Bool × String)
        (out : LoopResult),
      run_orchestration_with_feedbackE instructions maxRounds po wo bo =
          some out →
      out = run_orchestration_with_feedback instructions maxRounds po wo bo) ∧
    ∀ (instructions : String) (maxRounds : Nat) (po : Nat → PlanResult)
        (wo : Nat → Nat → TaskOutcome) (bo : Nat → Bool × String),
      (run_orchestration_with_feedback instructions maxRounds po wo
          bo).iterations.length ≤ maxRounds := by
  refine ⟨?_, ?_, ?_⟩
  · intro instructions maxRounds po wo bo hp
    have hp' : ∀ i, i < maxRounds → ∃ p, po i = .plan p ∧ p.files ≠ [] ∧
        ∀ g ∈ run_juniors_parallel p.files (wo i),
          ∃ f msg, g = GatherItem.res (.feedback f msg true) := by
      intro i hi
      obtain ⟨p, h1, h2, h3⟩ := hp i hi
      refine ⟨p, h1, h2, ?_⟩
      intro g hg
      obtain ⟨f, m, hfm⟩ := h3 g hg
      exact ⟨f, JVal.str m, hfm⟩
    have h := runLoopAux_blocked instructions maxRounds po wo bo hp' maxRounds
      { currentInstructions := instructions, filePlanMap := [],
        implementationMap := [], iterations := [] } (Nat.le_refl _)
    refine ⟨?_, h.1, by simpa using h.2⟩
    exact runLoopAuxE_blocked instructions maxRounds po wo bo hp maxRounds
      { currentInstructions := instructions, filePlanMap := [],
        implementationMap := [], iterations := [] } (Nat.le_refl _)
  · intro instructions maxRounds po wo bo out h
    exact runLoopAuxE_some instructions maxRounds po wo bo maxRounds
      { currentInstructions := instructions, filePlanMap := [],
        implementationMap := [], iterations := [] } out h
  · intro instructions maxRounds po wo bo
    have h := runLoopAux_length instructions maxRounds po wo bo maxRounds
      { currentInstructions := instructions, filePlanMap := [],
        implementationMap := [], iterations := [] }
    simpa using h

theorem claim_C3_max_rounds_reached_witness :
    run_orchestration_with_feedbackE "Build UI" 2 (fun _ => .plan planFoo)
        (fun _ _ => .ok (.success fbReplyFoo)) (fun _ => (true, "ok")) =
      some (run_orchestration_with_feedback "Build UI" 2 (fun _ => .plan planFoo)
        (fun _ _ => .ok (.success fbReplyFoo)) (fun _ => (true, "ok"))) ∧
    (run_orchestration_with_feedback "Build UI" 2 (fun _ => .plan planFoo)
        (fun _ _ => .ok (.success fbReplyFoo)) (fun _ => (true, "ok"))).status =
      some .maxRoundsReached ∧
    (run_orchestration_with_feedback "Build UI" 2 (fun _ => .plan planFoo)
        (fun _ _ => .ok (.success fbReplyFoo))
        (fun _ => (true, "ok"))).iterations.length = 2 := by
  refine claim_C3_max_rounds_reached.1 "Build UI" 2 _ _ _ ?_
  intro i _
  refine ⟨planFoo, rfl, List.cons_ne_nil _ _, ?_⟩
  intro g hg
  have hres : run_juniors_parallel planFoo.files
      ((fun _ _ => TaskOutcome.ok (.success fbReplyFoo)) i) =
      [GatherItem.res (.feedback "Foo.tsx" (JVal.str "Need design tokens") true)] := by
    rfl
  rw [hres] at hg
  obtain rfl := List.mem_singleton.mp hg
  exact ⟨"Foo.tsx", "Need design tokens", rfl⟩

/-- C7: the cumulative filename-to-content map returned by the loop is
last-write-wins across rounds: if some recorded iteration wrote `f` (its
last write being `c`) and no later iteration wrote `f`, the returned map
holds `c` — in particular a file re-implemented in a later round holds the
later content, and a file not re-implemented keeps its earlier content. -/
theorem claim_C7_last_write_wins (instructions : String) (maxRounds : Nat)
    (po : Nat → PlanResult) (wo : Nat → Nat → TaskOutcome)
    (bo : Nat → Bool × String) (m : List (String × JVal))
    (pre post : List Iteration) (it : Iteration) (f : String) (c : JVal)
    (hm : (run_orchestration_with_feedback instructions maxRounds po wo
        bo).implementations = some m)
    (hiter : (run_orchestration_with_feedback instructions maxRounds po wo
        bo).iterations = pre ++ it :: post)
    (hw : lastWriteList it.results.implementations f = some c)
    (hpost : ∀ it' ∈ post, lastWriteList it'.results.implementations f = none) :
    pyGet m f = some c := by
  obtain ⟨tail, htail, hget⟩ := runLoopAux_implMap instructions maxRounds po wo
    bo maxRounds
    { currentInstructions := instructions, filePlanMap := [],
      implementationMap := [], iterations := [] } m hm
  have hiter' : (runLoopAux instructions maxRounds po wo bo maxRounds
      { currentInstructions := instructions, filePlanMap := [],
        implementationMap := [], iterations := [] }).iterations =
      pre ++ it :: post := hiter
  have htail' : tail = pre ++ it :: post := by
    rw [htail] at hiter'
    simpa using hiter'
  rw [hget f, htail',
    lastWriteIters_append f pre it post c hw (lastWriteIters_of_none f post hpost)]
  rfl

/-- Scenario-D fixtures: `X.tsx` implemented in round 1 and re-implemented
in round 2, `Y.tsx` blocking in round 1 and implemented in round 2. -/
def planXY : OrchestrationPlan :=
  ⟨demoStyle, [mkFilePlan "X.tsx", mkFilePlan "Y.tsx"]⟩

def implReply (body : String) : String := "```tsx\n" ++ body ++ "\n```"

def fbReplyY : String :=
  "\x7b\"type\":\"feedback\",\"blocking\":true,\"message\":\"need\",\"filename\":\"Y.tsx\"\x7d"

def woD : Nat → Nat → TaskOutcome := fun r i =>
  if r = 0 then
    if i = 0 then .ok (.success (implReply "v1")) else .ok (.success fbReplyY)
  else
    if i = 0 then .ok (.success (implReply "v2")) else .ok (.success (implReply "w"))

def res0D : ImplResults :=
  ⟨[.implementation "X.tsx" (.str "v1"), .feedback "Y.tsx" (.str "need") true], []⟩

def it0D : Iteration :=
  ⟨planXY, res0D,
    [⟨"Y.tsx", .str "need", true⟩,
     ⟨"Y.tsx", .str "Missing implementations for planned files", true⟩]⟩

def res1D : ImplResults :=
  ⟨[.implementation "X.tsx" (.str "v2"), .implementation "Y.tsx" (.str "w")], []⟩

def it1D : Iteration := ⟨planXY, res1D, []⟩

def mD : List (String × JVal) := [("X.tsx", .str "v2"), ("Y.tsx", .str "w")]

/-- Every implementation or feedback payload built by `implement_component`
is tagged with the file plan's filename. -/
theorem gatherFilename_implement (fn : String) (o : ApiOutcome) (f : String)
    (h : gatherFilename (.res (implement_component_result fn o)) = some f) :
    f = fn := by
  unfold implement_component_result at h
  cases o with
  | failure c => simp [gatherFilename] at h
  | success text =>
    dsimp only at h
    cases hp : parse_feedback_or_code (pyStrip text) with
    | code c =>
      rw [hp] at h
      simp [gatherFilename] at h
      exact h.symm
    | jsonObj kvs =>
      rw [hp] at h
      dsimp only at h
      revert h
      split <;>
        · intro h
          simp [gatherFilename] at h
          exact h.symm

/-- C1 (counterexample): a worker task that errors contributes a result
entry with no filename at all, so `results[i].filename` does not hold for
error entries — refuting the claim for rounds with a failing task
(`implement_component`'s error payload carries only `content` and
`session_id`). -/
theorem claim_C1_counterexample :
    run_juniors_parallel [mkFilePlan "Foo.tsx"]
        (fun _ => .ok (.failure "OpenAI API returned empty content")) =
      [GatherItem.res (.error "OpenAI API returned empty content")] ∧
    gatherFilename (GatherItem.res (.error "OpenAI API returned empty content")) =
      none :=
  ⟨rfl, rfl⟩

/-- C1 (amended): the raw gathered result list always has exactly one entry
per planned file, in plan order, independent of completion order; every
entry that carries a filename (implementation or feedback payloads) carries
exactly the filename of the plan file at its index; error payloads and
captured exceptions carry no filename. -/
theorem claim_C1_results_align (files : List FilePlan)
    (outcomes : Nat → TaskOutcome) :
    (run_juniors_parallel files outcomes).length = files.length ∧
    ∀ (i : Nat) (g : GatherItem) (fp : FilePlan) (f : String),
      (run_juniors_parallel files outcomes)[i]? = some g →
      files[i]? = some fp → gatherFilename g = some f → f = fp.filename := by
  constructor
  · simp [run_juniors_parallel]
  · intro i g fp f hg hfp hname
    unfold run_juniors_parallel at hg
    rw [List.getElem?_map, List.getElem?_enum, hfp] at hg
    simp only [Option.map_some'] at hg
    injection hg with hg'
    subst hg'
    cases ho : outcomes i with
    | exn m =>
      rw [ho] at hname
      simp [gatherFilename] at hname
    | ok o =>
      rw [ho] at hname
      exact gatherFilename_implement fp.filename o f hname

theorem claim_C1_results_align_witness :
    (run_juniors_parallel [mkFilePlan "Foo.tsx"]
        (fun _ => .ok (.success fbReplyFoo))).length = 1 ∧
      "Foo.tsx" = (mkFilePlan "Foo.tsx").filename :=
  ⟨(claim_C1_results_align [mkFilePlan "Foo.tsx"]
      (fun _ => .ok (.success fbReplyFoo))).1,
    (claim_C1_results_align [mkFilePlan "Foo.tsx"]
        (fun _ => .ok (.success fbReplyFoo))).2 0
      (GatherItem.res (.feedback "Foo.tsx" (JVal.str "Need design tokens") true))
      (mkFilePlan "Foo.tsx") "Foo.tsx" rfl rfl rfl⟩

/-- C2 (counterexample): calling `process_chat` with a session id that has
no stored history and a successful completion does not append the turn pair
— the history write raises `KeyError`, caught into an error payload, and the
store is left untouched.  (This also contradicts the repository's own
feedback-loop test, which drives the loop with a freshly minted session id.) -/
theorem claim_C2_counterexample :
    (process_chat [] true "fresh" "Build UI" (some "orch-1")
        (.success "ok")).sessions = [] ∧
    (process_chat [] true "fresh" "Build UI" (some "orch-1")
        (.success "ok")).outcome = .error "\x27orch-1\x27" :=
  ⟨rfl, rfl⟩

/-- C2 (amended): the session entry is created only when no session id is
supplied; the (user, assistant) turn pair is appended exactly when a
non-empty completion is received and the session entry exists in the store;
error outcomes append nothing, and a supplied-but-unknown session id makes
the append raise `KeyError`, returning an error payload with nothing
stored. -/
theorem claim_C2_history_append :
    (∀ (st : Sessions) (fid instr sid : String) (h : List Turn) (raw : String),
      lookupSession st sid = some h →
      (process_chat st true fid instr (some sid) (.success raw)).sessions =
        setSession st sid (h ++
          [⟨"user", if instr = "" then "[Image-based request]" else instr⟩,
           ⟨"model", raw⟩])) ∧
    (∀ (st : Sessions) (fid instr sid raw : String),
      lookupSession st sid = none →
      (process_chat st true fid instr (some sid) (.success raw)).sessions = st ∧
      (process_chat st true fid instr (some sid) (.success raw)).outcome =
        .error ("\x27" ++ sid ++ "\x27")) ∧
    ∀ (st : Sessions) (fid instr : String) (sid : Option String) (msg : String),
      (process_chat st true fid instr sid (.failure msg)).sessions =
        (match sid with
         | none => setSession st fid []
         | some _ => st) ∧
      (process_chat st true fid instr sid (.failure msg)).outcome = .error msg := by
  refine ⟨?_, ?_, ?_⟩
  · intro st fid instr sid h raw hsess
    simp [process_chat, hsess]
  · intro st fid instr sid raw hsess
    constructor <;> simp [process_chat, hsess]
  · intro st fid instr sid msg
    cases sid <;> constructor <;> simp [process_chat]

theorem claim_C2_history_append_witness :
    (process_chat [("s", [])] true "f" "Build UI" (some "s")
        (.success "ok")).sessions =
      setSession [("s", [])] "s"
        ([] ++ [⟨"user", "Build UI"⟩, ⟨"model", "ok"⟩]) :=
  claim_C2_history_append.1 [("s", [])] "f" "Build UI" "s" [] "ok" rfl

/-- `process_chat`'s classification of a successful, non-empty completion in
an existing session: when the text yields no validated plan, the result is a
question carrying the stripped text. -/
theorem process_chat_success_question (st : Sessions) (fid instr sid : String)
    (h : List Turn) (raw : String) (hsess : lookupSession st sid = some h)
    (hparse : planParse (pyStrip raw) = none) :
    (process_chat st true fid instr (some sid) (.success raw)).outcome =
      .question (pyStrip raw) := by
  simp [process_chat, hsess, classifyResponse, hparse]

theorem toList_mk (l : List Char) : (⟨l⟩ : String).toList = l := rfl

/-- Characters of the stripped string occur in the original. -/
theorem mem_of_mem_pyStrip {c : Char} {s : String}
    (hc : c ∈ (pyStrip s).toList) : c ∈ s.toList := by
  simp only [pyStrip, toList_mk, List.mem_reverse] at hc
  have h2 : c ∈ (s.toList.dropWhile isPyWs).reverse :=
    (List.dropWhile_sublist _).subset hc
  rw [List.mem_reverse] at h2
  exact (List.dropWhile_sublist _).subset h2

/-- Without a brace-delimited span, no plan can be extracted. -/
theorem planParse_none_of_no_brace (raw : String)
    (hb : ¬ raw.toList.contains lbrace = true ∨
      ¬ raw.toList.contains rbrace = true) :
    planParse (pyStrip raw) = none := by
  unfold planParse
  rw [if_neg]
  rintro ⟨h1, h2⟩
  rcases hb with hb | hb
  · exact hb (List.elem_iff.mpr
      (mem_of_mem_pyStrip (List.elem_iff.mp h1)))
  · exact hb (List.elem_iff.mpr
      (mem_of_mem_pyStrip (List.elem_iff.mp h2)))

/-- C5 (counterexample): a reply holding a brace-delimited span that fails
JSON parsing yields a Question (carrying the text), not an Error — the
parse failure is caught and falls through to the question branch. -/
theorem claim_C5_counterexample :
    (process_chat [("s", [])] true "f" "Build UI" (some "s")
        (.success "\x7b\"files\": \x7d")).outcome =
      .question "\x7b\"files\": \x7d" := rfl

/-- C5 (amended): with an existing session and a successful completion,
any reply from which no validated plan can be extracted — no brace span, or
a brace span that fails JSON parsing or schema validation — yields a
Question carrying the stripped reply text (never an Error); in particular a
reply with no brace-delimited span always falls in this case. -/
theorem claim_C5_parse_failure_question :
    (∀ (st : Sessions) (fid instr sid : String) (h : List Turn) (raw : String),
      lookupSession st sid = some h →
      planParse (pyStrip raw) = none →
      (process_chat st true fid instr (some sid) (.success raw)).outcome =
        .question (pyStrip raw)) ∧
    ∀ raw : String,
      (¬ raw.toList.contains lbrace = true ∨
        ¬ raw.toList.contains rbrace = true) →
      planParse (pyStrip raw) = none :=
  ⟨fun st fid instr sid h raw hsess hparse =>
      process_chat_success_question st fid instr sid h raw hsess hparse,
    fun raw hb => planParse_none_of_no_brace raw hb⟩

theorem claim_C5_parse_failure_question_witness :
    (process_chat [("q", [])] true "f" "Build UI" (some "q")
        (.success "\x7b\"global_style\": \x7d")).outcome =
      .question "\x7b\"global_style\": \x7d" :=
  claim_C5_parse_failure_question.1 [("q", [])] "f" "Build UI" "q" []
    "\x7b\"global_style\": \x7d" rfl rfl

/-- C6 (counterexample): with the orchestrator session present in the store
and a round-1 reply with no brace span ending in a newline, the loop ends
errored with zero iterations, but the returned content is the *stripped*
reply, not the raw reply text. -/
theorem claim_C6_counterexample :
    (run_orchestration_with_feedback "Build UI" 3
        (fun _ => chatToPlanResult (process_chat [("orch", [])] true "f"
          "Build UI" (some "orch")
          (.success "Which pages do you need?\n")).outcome)
        (fun _ _ => .ok (.failure "unused"))
        (fun _ => (true, "log"))).isError = true ∧
    (run_orchestration_with_feedback "Build UI" 3
        (fun _ => chatToPlanResult (process_chat [("orch", [])] true "f"
          "Build UI" (some "orch")
          (.success "Which pages do you need?\n")).outcome)
        (fun _ _ => .ok (.failure "unused"))
        (fun _ => (true, "log"))).content = some "Which pages do you need?" ∧
    (run_orchestration_with_feedback "Build UI" 3
        (fun _ => chatToPlanResult (process_chat [("orch", [])] true "f"
          "Build UI" (some "orch")
          (.success "Which pages do you need?\n")).outcome)
        (fun _ _ => .ok (.failure "unused"))
        (fun _ => (true, "log"))).iterations = [] ∧
    "Which pages do you need?" ≠ "Which pages do you need?\n" :=
  ⟨rfl, rfl, rfl, by decide⟩

/-- C6 (amended): whenever the loop ends errored, the content is exactly
what the plan generator produced at the round indexed by the number of
recorded iterations; and in the round-1 scenario — orchestrator session
present in the store, reply with no brace-delimited span — the loop ends
errored immediately with zero iterations and content equal to the reply
text stripped of surrounding whitespace. -/
theorem claim_C6_errored_immediately :
    (∀ (I : String) (M : Nat) (po : Nat → PlanResult)
        (wo : Nat → Nat → TaskOutcome) (bo : Nat → Bool × String),
      (run_orchestration_with_feedback I M po wo bo).isError = true →
      ∃ c, (run_orchestration_with_feedback I M po wo bo).content = some c ∧
        po ((run_orchestration_with_feedback I M po wo
          bo).iterations.length) = .other c) ∧
    ∀ (st : Sessions) (fid sid : String) (h : List Turn) (instr raw : String)
        (M : Nat) (po : Nat → PlanResult) (wo : Nat → Nat → TaskOutcome)
        (bo : Nat → Bool × String),
      M ≠ 0 →
      lookupSession st sid = some h →
      (¬ raw.toList.contains lbrace = true ∨
        ¬ raw.toList.contains rbrace = true) →
      po 0 = chatToPlanResult
        (process_chat st true fid instr (some sid) (.success raw)).outcome →
      (run_orchestration_with_feedback instr M po wo bo).isError = true ∧
      (run_orchestration_with_feedback instr M po wo bo).content =
        some (pyStrip raw) ∧
      (run_orchestration_with_feedback instr M po wo bo).iterations = [] := by
  constructor
  · intro I M po wo bo hErr
    exact runLoopAux_error I M po wo bo M
      { currentInstructions := I, filePlanMap := [],
        implementationMap := [], iterations := [] } (by simp) hErr
  · intro st fid sid h instr raw M po wo bo hM hsess hb hpo
    have hq := process_chat_success_question st fid instr sid h raw hsess
      (planParse_none_of_no_brace raw hb)
    have hpo0 : po 0 = .other (pyStrip raw) := by
      rw [hpo, hq]
      rfl
    obtain ⟨k, rfl⟩ : ∃ k, M = k + 1 := ⟨M - 1, by omega⟩
    have hrun : run_orchestration_with_feedback instr (k + 1) po wo bo =
        errorResult (pyStrip raw)
          { currentInstructions := instr, filePlanMap := [],
            implementationMap := [], iterations := [] } := by
      show runLoopAux instr (k + 1) po wo bo (k + 1) _ = _
      simp only [runLoopAux, Nat.sub_self]
      rw [hpo0]
      rfl
    rw [hrun]
    exact ⟨rfl, rfl, rfl⟩

theorem claim_C6_errored_immediately_witness :
    ((run_orchestration_with_feedback "Build UI" 1
        (fun _ => chatToPlanResult (process_chat [("orch", ([] : List Turn))]
          true "f" "Build UI" (some "orch")
          (.success "Which pages do you need?\n")).outcome)
        (fun _ _ => .ok (.failure "unused"))
        (fun _ => (true, "log"))).isError = true →
      ∃ c, (run_orchestration_with_feedback "Build UI" 1
        (fun _ => chatToPlanResult (process_chat [("orch", ([] : List Turn))]
          true "f" "Build UI" (some "orch")
          (.success "Which pages do you need?\n")).outcome)
        (fun _ _ => .ok (.failure "unused"))
        (fun _ => (true, "log"))).content = some c ∧
        (fun _ => chatToPlanResult (process_chat [("orch", ([] : List Turn))]
          true "f" "Build UI" (some "orch")
          (.success "Which pages do you need?\n")).outcome)
          ((run_orchestration_with_feedback "Build UI" 1
            (fun _ => chatToPlanResult (process_chat [("orch", ([] : List Turn))]
              true "f" "Build UI" (some "orch")
              (.success "Which pages do you need?\n")).outcome)
            (fun _ _ => .ok (.failure "unused"))
            (fun _ => (true, "log"))).iterations.length) = .other c) ∧
    (run_orchestration_with_feedback "Build UI" 1
        (fun _ => chatToPlanResult (process_chat [("orch", ([] : List Turn))]
          true "f" "Build UI" (some "orch")
          (.success "Which pages do you need?\n")).outcome)
        (fun _ _ => .ok (.failure "unused"))
        (fun _ => (true, "log"))).isError = true ∧
      (run_orchestration_with_feedback "Build UI" 1
        (fun _ => chatToPlanResult (process_chat [("orch", ([] : List Turn))]
          true "f" "Build UI" (some "orch")
          (.success "Which pages do you need?\n")).outcome)
        (fun _ _ => .ok (.failure "unused"))
        (fun _ => (true, "log"))).content =
          some (pyStrip "Which pages do you need?\n") ∧
      (run_orchestration_with_feedback "Build UI" 1
        (fun _ => chatToPlanResult (process_chat [("orch", ([] : List Turn))]
          true "f" "Build UI" (some "orch")
          (.success "Which pages do you need?\n")).outcome)
        (fun _ _ => .ok (.failure "unused"))
        (fun _ => (true, "log"))).iterations = [] :=
  ⟨claim_C6_errored_immediately.1 "Build UI" 1
      (fun _ => chatToPlanResult (process_chat [("orch", ([] : List Turn))]
        true "f" "Build UI" (some "orch")
        (.success "Which pages do you need?\n")).outcome)
      (fun _ _ => .ok (.failure "unused"))
      (fun _ => (true, "log")),
    claim_C6_errored_immediately.2 [("orch", [])] "f" "orch" [] "Build UI"
      "Which pages do you need?\n" 1
      (fun _ => chatToPlanResult (process_chat [("orch", ([] : List Turn))]
        true "f" "Build UI" (some "orch")
        (.success "Which pages do you need?\n")).outcome)
      (fun _ _ => .ok (.failure "unused"))
      (fun _ => (true, "log"))
      (by decide) rfl (Or.inl (by decide)) rfl⟩

/-- C4 fixtures: plan A/B/C where A yields an implementation, B yields
non-blocking feedback and C's upstream call errors. -/
def planABC : OrchestrationPlan :=
  ⟨demoStyle, [mkFilePlan "A.tsx", mkFilePlan "B.tsx", mkFilePlan "C.tsx"]⟩

def fbReplyB : String :=
  "\x7b\"type\":\"feedback\",\"blocking\":false,\"message\":\"hm\",\"filename\":\"B.tsx\"\x7d"

def woABC1 : Nat → TaskOutcome := fun i =>
  if i = 0 then .ok (.success (implReply "a"))
  else if i = 1 then .ok (.success fbReplyB)
  else .ok (.failure "api down")

def woABC : Nat → Nat → TaskOutcome := fun _ => woABC1

/-- C4 (counterexample): in a round where `C.tsx` produced neither an
implementation nor a feedback payload (its call errored), the recorded
feedback contains no item for `C.tsx` at all: the single synthesized item
covers all missing filenames comma-joined (`"B.tsx,C.tsx"`), and `B.tsx` is
included even though it produced a Feedback payload, because the check is
membership in the cumulative implementation map. -/
theorem claim_C4_counterexample :
    (run_orchestration_with_feedback "Build UI" 1 (fun _ => .plan planABC)
        woABC (fun _ => (true, "ok"))).iterations.map (·.feedback) =
      [[⟨"B.tsx", .str "hm", false⟩,
        ⟨"B.tsx,C.tsx", .str "Missing implementations for planned files",
          true⟩]] ∧
    (((run_orchestration_with_feedback "Build UI" 1 (fun _ => .plan planABC)
        woABC (fun _ => (true, "ok"))).iterations.map
          (·.feedback)).headD []).filter (fun x => x.filename == "C.tsx") = [] :=
  ⟨rfl, rfl⟩

/-- C4 (amended): the aggregation step itself synthesizes nothing for
missing files (its output is a permutation of the promoted feedback and
error items); when planned filenames are absent from the cumulative
implementation map after a round, the loop appends exactly one additional
blocking item whose filename is the comma-joined list of all such missing
filenames, and continues. -/
theorem claim_C4_missing_files_single_item :
    (∀ (res : ImplResults) (plan_files : List FilePlan),
      (summarize_feedback res plan_files).Perm (combinedItems res)) ∧
    ∀ (I : String) (M ρ : Nat) (o : Nat → TaskOutcome) (b : Bool × String)
        (st : LoopState) (p : OrchestrationPlan),
      roundMissing p (roundCollect p o st.implementationMap).2 ≠ [] →
      ∃ st', runRound I M ρ (.plan p) o b st = .inr st' ∧
        st'.iterations = st.iterations ++
          [⟨p, (roundCollect p o st.implementationMap).1,
            summarize_feedback (roundCollect p o st.implementationMap).1
                p.files ++
              [missingItem
                (roundMissing p (roundCollect p o st.implementationMap).2)]⟩] :=
  ⟨fun res plan_files => sortByKey_perm _ _,
    fun I M ρ o b st p hmiss => ⟨_, runRound_missing p hmiss, rfl⟩⟩

theorem claim_C4_missing_files_single_item_witness :
    ∃ st', runRound "Build UI" 1 0 (.plan planABC) woABC1 (true, "ok")
        { currentInstructions := "Build UI", filePlanMap := [],
          implementationMap := [], iterations := [] } = .inr st' ∧
      st'.iterations = [] ++
        [⟨planABC, (roundCollect planABC woABC1 []).1,
          summarize_feedback (roundCollect planABC woABC1 []).1 planABC.files ++
            [missingItem (roundMissing planABC (roundCollect planABC woABC1
              []).2)]⟩] :=
  claim_C4_missing_files_single_item.2 "Build UI" 1 0 woABC1 (true, "ok")
    { currentInstructions := "Build UI", filePlanMap := [],
      implementationMap := [], iterations := [] } planABC (by decide)

theorem lastIdxOf_lt_length :
    ∀ (names : List String) (n : String) (i : Nat),
      lastIdxOf names n = some i → i < names.length := by
  intro names
  induction names with
  | nil => intro n i h; simp [lastIdxOf] at h
  | cons x xs ih =>
    intro n i h
    unfold lastIdxOf at h
    revert h
    cases hrec : lastIdxOf xs n with
    | some j =>
      intro h
      injection h with h'
      subst h'
      have := ih n j hrec
      simpa using Nat.succ_lt_succ this
    | none =>
      intro h
      split_ifs at h with hx
      injection h with h'
      subst h'
      simp

/-- C8 (amended): for plans with at most 999 files the summarized digest is
a stable sort of the combined items by plan position: it is a permutation of
the combined items, sorted by the code's key (plan index, `999` for unknown
filenames), items of equal key keep their relative order, and items for
unknown filenames come after all items for planned filenames. -/
theorem claim_C8_sorted_stable (res : ImplResults) (plan_files : List FilePlan)
    (hlen : plan_files.length ≤ 999) :
    (summarize_feedback res plan_files).Perm (combinedItems res) ∧
    (summarize_feedback res plan_files).Pairwise
      (fun a b => sortKeyOf plan_files a ≤ sortKeyOf plan_files b) ∧
    (∀ k, (summarize_feedback res plan_files).filter
        (fun it => sortKeyOf plan_files it == k) =
      (combinedItems res).filter (fun it => sortKeyOf plan_files it == k)) ∧
    (summarize_feedback res plan_files).Pairwise
      (fun a b => isPlannedName plan_files b.filename = true →
        isPlannedName plan_files a.filename = true) := by
  refine ⟨sortByKey_perm _ _, sortByKey_sorted _ _,
    fun k => filter_sortByKey _ k _, ?_⟩
  refine (sortByKey_sorted (sortKeyOf plan_files) (combinedItems res)).imp ?_
  intro a b hab hbp
  unfold isPlannedName at hbp ⊢
  rcases hia : lastIdxOf (plan_files.map (·.filename)) a.filename with _ | i
  · exfalso
    obtain ⟨j, hj⟩ := Option.isSome_iff_exists.mp hbp
    have hjlt : j < plan_files.length := by
      have := lastIdxOf_lt_length _ _ _ hj
      simpa using this
    have hka : sortKeyOf plan_files a = 999 := by simp [sortKeyOf, hia]
    have hkb : sortKeyOf plan_files b = j := by simp [sortKeyOf, hj]
    rw [hka, hkb] at hab
    omega
  · simp [hia]

def resW8 : ImplResults := ⟨[.feedback "A.tsx" (.str "m") true], []⟩

def filesW8 : List FilePlan := [mkFilePlan "A.tsx"]

theorem claim_C8_sorted_stable_witness :
    filesW8.length ≤ 999 ∧
    (summarize_feedback resW8 filesW8).Perm (combinedItems resW8) ∧
    (summarize_feedback resW8 filesW8).filter
        (fun it => sortKeyOf filesW8 it == 0) =
      (combinedItems resW8).filter (fun it => sortKeyOf filesW8 it == 0) :=
  ⟨by decide,
    (claim_C8_sorted_stable resW8 filesW8 (by decide)).1,
    (claim_C8_sorted_stable resW8 filesW8 (by decide)).2.2.1 0⟩

/-- A 1001-file plan and a digest with one item for the plan's last file and
one item for an unrecognized filename. -/
def bigFiles : List FilePlan :=
  (List.range 1001).map fun i => mkFilePlan ("F" ++ Nat.repr i)

def resBig : ImplResults :=
  ⟨[.feedback "F1000" (.str "m") true, .feedback "zzz" (.str "n") true], []⟩

set_option maxRecDepth 40000 in
/-- C8 (counterexample): the claim fails for plans of arbitrary size — the
unknown-filename sentinel key is `999`, so with 1001 planned files the item
for the unrecognized filename `"zzz"` (key 999) sorts *before* the item for
the planned file `"F1000"` at plan position 1000. -/
theorem claim_C8_counterexample :
    summarize_feedback resBig bigFiles =
      [⟨"zzz", .str "n", true⟩, ⟨"F1000", .str "m", true⟩] ∧
    isPlannedName bigFiles "zzz" = false ∧
    isPlannedName bigFiles "F1000" = true :=
  ⟨rfl, rfl, rfl⟩

theorem claim_C7_last_write_wins_witness :
    (run_orchestration_with_feedback "Build UI" 2 (fun _ => .plan planXY) woD
        (fun _ => (true, "ok"))).implementations = some mD ∧
      pyGet mD "X.tsx" = some (JVal.str "v2") :=
  ⟨by rfl,
    claim_C7_last_write_wins "Build UI" 2 (fun _ => .plan planXY) woD
      (fun _ => (true, "ok")) mD [it0D] [] it1D "X.tsx" (.str "v2")
      (by rfl) (by rfl) (by rfl) (by simp)⟩

theorem findSub_tail_none {B : List Char} {c : Char} {need : List Char}
    (h : findSub (c :: B) need = none) : findSub B need = none := by
  unfold findSub at h
  split_ifs at h with hp
  exact Option.map_eq_none'.mp h

theorem rfind_fence (B : List Char) (hnf : findSub B ['`', '`', '`'] = none) :
    rfindSub (B ++ ['\n', '`', '`', '`']) ['`', '`', '`'] =
      some (B.length + 1) := by
  induction B with
  | nil => rfl
  | cons c B' ih =>
    have hB' : findSub B' ['`', '`', '`'] = none := findSub_tail_none hnf
    have hmain := ih hB'
    show rfindSub (c :: (B' ++ ['\n', '`', '`', '`'])) ['`', '`', '`'] = _
    unfold rfindSub
    rw [hmain]
    simp

theorem reply_toList (body : String) :
    ("```tsx\n" ++ body ++ "\n```").toList =
      '`' :: '`' :: '`' :: 't' :: 's' :: 'x' :: '\n' ::
        (body.toList ++ ['\n', '`', '`', '`']) := by
  show (("```tsx\n" ++ body) ++ "\n```").data = _
  rw [String.data_append, String.data_append, List.append_assoc]
  rfl

theorem pyStrip_reply (body : String) :
    pyStrip ("```tsx\n" ++ body ++ "\n```") = "```tsx\n" ++ body ++ "\n```" := by
  have hrev : ("```tsx\n" ++ body ++ "\n```").toList.reverse =
      '`' :: '`' :: '`' :: '\n' ::
        (body.toList.reverse ++ ['\n', 'x', 's', 't', '`', '`', '`']) := by
    rw [reply_toList]
    simp
  unfold pyStrip
  have hfront : ("```tsx\n" ++ body ++ "\n```").toList.dropWhile isPyWs =
      ("```tsx\n" ++ body ++ "\n```").toList := by
    rw [reply_toList]
    rfl
  rw [hfront, hrev]
  show (⟨(('`' :: '`' :: '`' :: '\n' ::
    (body.toList.reverse ++ ['\n', 'x', 's', 't', '`', '`', '`'])).dropWhile
      isPyWs).reverse⟩ : String) = _
  rw [show ('`' :: '`' :: '`' :: '\n' ::
      (body.toList.reverse ++ ['\n', 'x', 's', 't', '`', '`', '`'])).dropWhile
        isPyWs =
      '`' :: '`' :: '`' :: '\n' ::
        (body.toList.reverse ++ ['\n', 'x', 's', 't', '`', '`', '`']) from rfl]
  rw [← hrev, List.reverse_reverse]
  rfl

theorem nilIsPrefix (B : List Char) : List.isPrefixOf ([] : List Char) B = true := by
  cases B <;> rfl

theorem prefix_nl (B : List Char) : List.isPrefixOf ['\n'] ('\n' :: B) = true := by
  show (('\n' == '\n') && List.isPrefixOf ([] : List Char) B) = true
  rw [nilIsPrefix]
  rfl

theorem findSub_open (B : List Char) :
    findSub ('`' :: '`' :: '`' :: 't' :: 's' :: 'x' :: '\n' :: B) ['\n'] =
      some 6 := by
  have h0 : findSub ('\n' :: B) ['\n'] = some 0 := by
    show (if List.isPrefixOf ['\n'] ('\n' :: B) = true then some 0
      else (findSub B ['\n']).map (· + 1)) = some 0
    rw [prefix_nl B]
    simp
  show ((((((findSub ('\n' :: B) ['\n']).map (· + 1)).map (· + 1)).map
      (· + 1)).map (· + 1)).map (· + 1)).map (· + 1) = some 6
  rw [h0]
  rfl

theorem endsWith_mid (body : String) :
    strEndsWith ⟨body.toList ++ ['\n', '`', '`', '`']⟩ "```" = true := by
  show List.isSuffixOf "```".toList (body.toList ++ ['\n', '`', '`', '`']) = true
  unfold List.isSuffixOf
  rw [show (body.toList ++ ['\n', '`', '`', '`']).reverse =
    '`' :: '`' :: '`' :: '\n' :: body.toList.reverse from by simp]
  rfl

theorem take_fence (B : List Char) :
    List.take (B.length + 1) (B ++ ['\n', '`', '`', '`']) = B ++ ['\n'] := by
  rw [show B ++ ['\n', '`', '`', '`'] = (B ++ ['\n']) ++ ['`', '`', '`'] from by
    simp]
  rw [show B.length + 1 = (B ++ ['\n']).length + 0 from by simp]
  rw [List.take_append]
  simp

theorem take_mid (body : String) :
    takeChars ⟨body.toList ++ ['\n', '`', '`', '`']⟩ (body.toList.length + 1) =
      ⟨body.toList ++ ['\n']⟩ :=
  congrArg String.mk (take_fence body.toList)

theorem strip_body_newline (body : String)
    (h1 : body.toList.dropWhile isPyWs = body.toList)
    (h2 : body.toList.reverse.dropWhile isPyWs = body.toList.reverse) :
    pyStrip ⟨body.toList ++ ['\n']⟩ = body := by
  cases body with
  | mk d =>
    have h1' : d.dropWhile isPyWs = d := h1
    have h2' : d.reverse.dropWhile isPyWs = d.reverse := h2
    cases hd : d with
    | nil => subst hd; rfl
    | cons c B' =>
      subst hd
      have hc : isPyWs c = false := by
        by_contra hcc
        rw [Bool.not_eq_false] at hcc
        rw [List.dropWhile_cons, if_pos hcc] at h1'
        have hlen := congrArg List.length h1'
        have hle := (List.dropWhile_sublist (l := B') (p := isPyWs)).length_le
        simp at hlen
        omega
      show (⟨((((c :: B') ++ ['\n']).dropWhile isPyWs).reverse.dropWhile
        isPyWs).reverse⟩ : String) = _
      rw [show ((c :: B') ++ ['\n']).dropWhile isPyWs = (c :: B') ++ ['\n'] from by
        show (c :: (B' ++ ['\n'])).dropWhile isPyWs = _
        rw [List.dropWhile_cons, if_neg (by simp [hc])]
        rfl]
      rw [show ((c :: B') ++ ['\n']).reverse = '\n' :: (c :: B').reverse from by
        simp]
      rw [List.dropWhile_cons, if_pos (show isPyWs '\n' = true from rfl)]
      rw [h2', List.reverse_reverse]

theorem cleanedOf_reply (body : String)
    (hnf : findSub body.toList ['`', '`', '`'] = none)
    (h1 : body.toList.dropWhile isPyWs = body.toList)
    (h2 : body.toList.reverse.dropWhile isPyWs = body.toList.reverse) :
    cleanedOf ("```tsx\n" ++ body ++ "\n```") = body := by
  have hs1 : strStartsWith ("```tsx\n" ++ body ++ "\n```") "```" = true := by
    unfold strStartsWith
    rw [reply_toList]
    rfl
  have hs2 : findSub ("```tsx\n" ++ body ++ "\n```").toList ['\n'] = some 6 := by
    rw [reply_toList]
    exact findSub_open _
  have hs3 : dropChars ("```tsx\n" ++ body ++ "\n```") 7 =
      ⟨body.toList ++ ['\n', '`', '`', '`']⟩ := by
    unfold dropChars
    rw [reply_toList]
    rfl
  have hs5 : rfindSub ((⟨body.toList ++ ['\n', '`', '`', '`']⟩ : String)).toList
      ['`', '`', '`'] = some (body.toList.length + 1) := by
    rw [toList_mk]
    exact rfind_fence _ hnf
  unfold cleanedOf
  rw [pyStrip_reply]
  simp only [hs1, if_true, hs2, hs3, endsWith_mid body, hs5, take_mid body,
    strip_body_newline body h1 h2]

theorem clean_code_output_reply (body : String)
    (hnf : findSub body.toList ['`', '`', '`'] = none)
    (h1 : body.toList.dropWhile isPyWs = body.toList)
    (h2 : body.toList.reverse.dropWhile isPyWs = body.toList.reverse) :
    clean_code_output ("```tsx\n" ++ body ++ "\n```") = body := by
  have hs1 : strStartsWith ("```tsx\n" ++ body ++ "\n```") "```" = true := by
    unfold strStartsWith
    rw [reply_toList]
    rfl
  have hs2 : findSub ("```tsx\n" ++ body ++ "\n```").toList ['\n'] = some 6 := by
    rw [reply_toList]
    exact findSub_open _
  have hs3 : dropChars ("```tsx\n" ++ body ++ "\n```") 7 =
      ⟨body.toList ++ ['\n', '`', '`', '`']⟩ := by
    unfold dropChars
    rw [reply_toList]
    rfl
  have hs5 : rfindSub ((⟨body.toList ++ ['\n', '`', '`', '`']⟩ : String)).toList
      ['`', '`', '`'] = some (body.toList.length + 1) := by
    rw [toList_mk]
    exact rfind_fence _ hnf
  unfold clean_code_output
  rw [pyStrip_reply]
  simp only [hs1, if_true, hs2, hs3, endsWith_mid body, hs5]
  rw [show takeChars ⟨body.toList ++ ['\n', '`', '`', '`']⟩
      (body.toList.length + 1) = ⟨body.toList ++ ['\n']⟩ from take_mid body]
  exact strip_body_newline body h1 h2

/-- The fence case of the reply classification: a fenced body with no inner
fence, no surrounding whitespace, and not decoding to a JSON object with a
`"type"` key, classifies as an implementation whose content is exactly the
body. -/
theorem fence_classify (fname body : String)
    (hnf : findSub body.toList ['`', '`', '`'] = none)
    (h1 : body.toList.dropWhile isPyWs = body.toList)
    (h2 : body.toList.reverse.dropWhile isPyWs = body.toList.reverse)
    (hNoObj : ∀ kvs, jparse body = some (JVal.obj kvs) →
      jHasKey kvs "type" = false) :
    implement_component_result fname (.success ("```tsx\n" ++ body ++ "\n```")) =
      .implementation fname (.str body) := by
  unfold implement_component_result
  dsimp only
  rw [pyStrip_reply]
  unfold parse_feedback_or_code
  rw [cleanedOf_reply body hnf h1 h2]
  cases hjp : jparse body with
  | none =>
    dsimp only
    rw [clean_code_output_reply body hnf h1 h2]
  | some v =>
    cases v with
    | obj kvs =>
      dsimp only
      rw [hNoObj kvs hjp]
      simp only [Bool.false_eq_true, if_false]
      rw [clean_code_output_reply body hnf h1 h2]
    | str s =>
      dsimp only
      rw [clean_code_output_reply body hnf h1 h2]
    | num n =>
      dsimp only
      rw [clean_code_output_reply body hnf h1 h2]
    | bool b =>
      dsimp only
      rw [clean_code_output_reply body hnf h1 h2]
    | null =>
      dsimp only
      rw [clean_code_output_reply body hnf h1 h2]
    | arr xs =>
      dsimp only
      rw [clean_code_output_reply body hnf h1 h2]

/-- C10 (counterexample): a reply that parses as a JSON object carrying the
`"type"` discriminator with a value other than `"feedback"` does *not*
classify as Feedback — it becomes an Implementation whose content is the
JSON text itself (`parsed.get("type") == "feedback"` is the actual test). -/
theorem claim_C10_counterexample :
    implement_component_result "A.tsx"
        (.success "\x7b\"type\": \"x\"\x7d") =
      .implementation "A.tsx" (.str "\x7b\"type\": \"x\"\x7d") := rfl

/-- C10 (amended): a reply whose fence-stripped text decodes to a JSON
object with `"type"` equal to `"feedback"` classifies as Feedback (message
defaulting to `""`, blocking via Python truthiness, default false); and the
fence example holds for every body that contains no fence, carries no
surrounding whitespace, and does not itself decode to a JSON object with a
`"type"` key: ```tsx-fenced bodies classify as Implementation with content
exactly the body. -/
theorem claim_C10_classification :
    (∀ (fname reply : String) (kvs : List (String × JVal)),
      jparse (cleanedOf (pyStrip reply)) = some (.obj kvs) →
      jGet kvs "type" = some (.str "feedback") →
      implement_component_result fname (.success reply) =
        .feedback fname ((jGet kvs "message").getD (.str ""))
          (pyTruthy ((jGet kvs "blocking").getD (.bool false)))) ∧
    ∀ (fname body : String),
      findSub body.toList ['`', '`', '`'] = none →
      body.toList.dropWhile isPyWs = body.toList →
      body.toList.reverse.dropWhile isPyWs = body.toList.reverse →
      (∀ kvs, jparse body = some (JVal.obj kvs) → jHasKey kvs "type" = false) →
      implement_component_result fname
          (.success ("```tsx\n" ++ body ++ "\n```")) =
        .implementation fname (.str body) := by
  constructor
  · intro fname reply kvs hparse htype
    unfold implement_component_result
    dsimp only
    unfold parse_feedback_or_code
    rw [hparse]
    dsimp only
    rw [show jHasKey kvs "type" = true from by simp [jHasKey, htype]]
    simp only [if_true]
    rw [htype]
    rfl
  · intro fname body hnf h1 h2 hNoObj
    exact fence_classify fname body hnf h1 h2 hNoObj

theorem claim_C10_classification_witness :
    implement_component_result "Foo.tsx" (.success fbReplyFoo) =
        .feedback "Foo.tsx" (JVal.str "Need design tokens") true ∧
      implement_component_result "Foo.tsx"
          (.success ("```tsx\n" ++ "const Foo = 1;" ++ "\n```")) =
        .implementation "Foo.tsx" (.str "const Foo = 1;") :=
  ⟨claim_C10_classification.1 "Foo.tsx" fbReplyFoo
      [("type", JVal.str "feedback"), ("blocking", JVal.bool true),
       ("message", JVal.str "Need design tokens"),
       ("filename", JVal.str "Foo.tsx")] rfl rfl,
    claim_C10_classification.2 "Foo.tsx" "const Foo = 1;" rfl rfl rfl
      (fun kvs h => by
        rw [show jparse "const Foo = 1;" = none from rfl] at h
        exact Option.noConfusion h)⟩

end AgentLoop
